import Mathlib

/-!
# A shallow embedding of the schemagen generator and validator

This file embeds the Go package `schemagen` (schema model, pre-generation
validator, and the recursive seeded generation engine) in Lean and proves
properties of the embedding.

Modelling conventions, chosen once and used throughout:

* Go `float64` is modelled as `Rat`.  All numeric bounds in the schemas of
  interest are small decimal literals, for which rational arithmetic agrees
  with the double-precision arithmetic the Go code performs.
* A Go `map[string]X` is modelled as an association list with distinct keys.
  Go's `range` over a map visits entries in an unspecified order, so the two
  association lists `[(a,x),(b,y)]` and `[(b,y),(a,x)]` represent the *same*
  Go map, read in two of its possible iteration orders.
* The package's random state (`math/rand` stream plus the gofakeit faker,
  both re-seeded together by `SetSeed`) is modelled as a `GenState` holding
  pre-sampled entropy streams and a cursor into each.  One Go draw advances
  the matching cursor by one (or by `n` for `LetterN n`).  The external
  faker and pattern-generator capabilities (gofakeit and reggen, out of
  scope per the design) are abstract streams/functions inside the state.
* The Go recursion is structurally terminating on the finite schema tree;
  the Lean interpreter instead takes a fuel argument and counts it down on
  every recursive descent, so that it is structurally recursive and fully
  computable.  Running out of fuel is a distinguished `GenError.outOfFuel`
  that corresponds to no behaviour of the Go code; every actual Go run is
  reproduced by every sufficiently large fuel.
* `context.Context` cancellation is a `cancelled` flag in the state, checked
  at entry of every recursive call exactly as the Go `select` is.
-/

/- Batteries marks rational arithmetic `@[irreducible]`, which blocks the
definitional evaluation the concrete witnesses below rely on; re-expose it
for this file. -/
unseal Rat.add Rat.sub Rat.mul Rat.inv

/-- In-memory JSON-like values (`interface{}` results of the generator):
Go `nil`, `bool`, `int64`, `float64`, `string`, `[]interface{}` and
`map[string]interface{}` (the map as an association list in insertion
order; the serializer sorts keys the way `encoding/json` does). -/
inductive Value where
  | null
  | bool (b : Bool)
  | int (n : Int)
  | num (q : Rat)
  | str (s : String)
  | arr (elems : List Value)
  | obj (fields : List (String × Value))

/-- The polymorphic `type` field (Go `StringOrArray`): `single s` is the
non-array form (`IsArray = false`, `Single = s`), `multiple l` the array
form (`IsArray = true`, `Multiple = l`). -/
inductive StringOrArray where
  | single (s : String)
  | multiple (l : List String)
deriving DecidableEq

/-- Go `StringOrArray.GetTypes`: the declared types as a list; a single
empty string means "no type". -/
def StringOrArray.getTypes : StringOrArray → List String
  | .single s => if s = "" then [] else [s]
  | .multiple l => l

/-- Go `StringOrArray.IsEmpty`: no type is specified. -/
def StringOrArray.isEmpty : StringOrArray → Bool
  | .single s => s = ""
  | .multiple l => l.isEmpty

mutual
/-- The schema model (Go `Schema`), with exactly the fields the engine and
validator read.  `properties` is a Go map, modelled as an association list
(see the header); `additionalProperties` and `items` are the `interface{}`
fields after shape analysis, with `other` covering every shape the Go
code's type switches do not recognise.  `Ref`, `Definitions`, `Defs` and
`Title` are never read by the engine or validator and are omitted. -/
inductive Schema where
  | mk (type : StringOrArray)
       (enum : List Value)
       (const : Option Value)
       (minLength : Option Nat) (maxLength : Option Nat)
       (pattern : String) (format : String)
       (minimum : Option Rat) (maximum : Option Rat)
       (exclusiveMinimum : Option Rat) (exclusiveMaximum : Option Rat)
       (multipleOf : Option Rat)
       (properties : Option (List (String × Schema)))
       (required : List String)
       (additionalProperties : Option APSchema)
       (items : Option ItemsSchema)
       (minItems : Option Nat) (maxItems : Option Nat)
       (oneOf : List Schema) (anyOf : List Schema) (allOf : List Schema)

/-- The decoded `additionalProperties` field: a boolean, a sub-schema, or
any other JSON shape (which the Go type switch ignores). -/
inductive APSchema where
  | boolean (b : Bool)
  | schema (s : Schema)
  | other

/-- The decoded `items` field: one schema for all elements, a tuple of
positional schemas, or any other shape (a hard error in Go). -/
inductive ItemsSchema where
  | one (s : Schema)
  | tuple (schemas : List Schema)
  | other
end

def Schema.type : Schema → StringOrArray
  | .mk x _ _ _ _ _ _ _ _ _ _ _ _ _ _ _ _ _ _ _ _ => x

def Schema.enum : Schema → List Value
  | .mk _ x _ _ _ _ _ _ _ _ _ _ _ _ _ _ _ _ _ _ _ => x

def Schema.const : Schema → Option Value
  | .mk _ _ x _ _ _ _ _ _ _ _ _ _ _ _ _ _ _ _ _ _ => x

def Schema.minLength : Schema → Option Nat
  | .mk _ _ _ x _ _ _ _ _ _ _ _ _ _ _ _ _ _ _ _ _ => x

def Schema.maxLength : Schema → Option Nat
  | .mk _ _ _ _ x _ _ _ _ _ _ _ _ _ _ _ _ _ _ _ _ => x

def Schema.pattern : Schema → String
  | .mk _ _ _ _ _ x _ _ _ _ _ _ _ _ _ _ _ _ _ _ _ => x

def Schema.format : Schema → String
  | .mk _ _ _ _ _ _ x _ _ _ _ _ _ _ _ _ _ _ _ _ _ => x

def Schema.minimum : Schema → Option Rat
  | .mk _ _ _ _ _ _ _ x _ _ _ _ _ _ _ _ _ _ _ _ _ => x

def Schema.maximum : Schema → Option Rat
  | .mk _ _ _ _ _ _ _ _ x _ _ _ _ _ _ _ _ _ _ _ _ => x

def Schema.exclusiveMinimum : Schema → Option Rat
  | .mk _ _ _ _ _ _ _ _ _ x _ _ _ _ _ _ _ _ _ _ _ => x

def Schema.exclusiveMaximum : Schema → Option Rat
  | .mk _ _ _ _ _ _ _ _ _ _ x _ _ _ _ _ _ _ _ _ _ => x

def Schema.multipleOf : Schema → Option Rat
  | .mk _ _ _ _ _ _ _ _ _ _ _ x _ _ _ _ _ _ _ _ _ => x

def Schema.properties : Schema → Option (List (String × Schema))
  | .mk _ _ _ _ _ _ _ _ _ _ _ _ x _ _ _ _ _ _ _ _ => x

def Schema.required : Schema → List String
  | .mk _ _ _ _ _ _ _ _ _ _ _ _ _ x _ _ _ _ _ _ _ => x

def Schema.additionalProperties : Schema → Option APSchema
  | .mk _ _ _ _ _ _ _ _ _ _ _ _ _ _ x _ _ _ _ _ _ => x

def Schema.items : Schema → Option ItemsSchema
  | .mk _ _ _ _ _ _ _ _ _ _ _ _ _ _ _ x _ _ _ _ _ => x

def Schema.minItems : Schema → Option Nat
  | .mk _ _ _ _ _ _ _ _ _ _ _ _ _ _ _ _ x _ _ _ _ => x

def Schema.maxItems : Schema → Option Nat
  | .mk _ _ _ _ _ _ _ _ _ _ _ _ _ _ _ _ _ x _ _ _ => x

def Schema.oneOf : Schema → List Schema
  | .mk _ _ _ _ _ _ _ _ _ _ _ _ _ _ _ _ _ _ x _ _ => x

def Schema.anyOf : Schema → List Schema
  | .mk _ _ _ _ _ _ _ _ _ _ _ _ _ _ _ _ _ _ _ x _ => x

def Schema.allOf : Schema → List Schema
  | .mk _ _ _ _ _ _ _ _ _ _ _ _ _ _ _ _ _ _ _ _ x => x

/-- The zero `Schema` (all Go zero values: empty single type, nil pointers,
nil slices and maps, empty strings). -/
def Schema.empty : Schema :=
  .mk (.single "") [] none none none "" "" none none none none none none []
    none none none none [] [] []

def Schema.withType : Schema → StringOrArray → Schema
  | .mk _ a2 a3 a4 a5 a6 a7 a8 a9 a10 a11 a12 a13 a14 a15 a16 a17 a18 a19 a20 a21, v =>
    .mk v a2 a3 a4 a5 a6 a7 a8 a9 a10 a11 a12 a13 a14 a15 a16 a17 a18 a19 a20 a21

def Schema.withEnum : Schema → List Value → Schema
  | .mk a1 _ a3 a4 a5 a6 a7 a8 a9 a10 a11 a12 a13 a14 a15 a16 a17 a18 a19 a20 a21, v =>
    .mk a1 v a3 a4 a5 a6 a7 a8 a9 a10 a11 a12 a13 a14 a15 a16 a17 a18 a19 a20 a21

def Schema.withConst : Schema → Option Value → Schema
  | .mk a1 a2 _ a4 a5 a6 a7 a8 a9 a10 a11 a12 a13 a14 a15 a16 a17 a18 a19 a20 a21, v =>
    .mk a1 a2 v a4 a5 a6 a7 a8 a9 a10 a11 a12 a13 a14 a15 a16 a17 a18 a19 a20 a21

def Schema.withMinLength : Schema → Option Nat → Schema
  | .mk a1 a2 a3 _ a5 a6 a7 a8 a9 a10 a11 a12 a13 a14 a15 a16 a17 a18 a19 a20 a21, v =>
    .mk a1 a2 a3 v a5 a6 a7 a8 a9 a10 a11 a12 a13 a14 a15 a16 a17 a18 a19 a20 a21

def Schema.withMaxLength : Schema → Option Nat → Schema
  | .mk a1 a2 a3 a4 _ a6 a7 a8 a9 a10 a11 a12 a13 a14 a15 a16 a17 a18 a19 a20 a21, v =>
    .mk a1 a2 a3 a4 v a6 a7 a8 a9 a10 a11 a12 a13 a14 a15 a16 a17 a18 a19 a20 a21

def Schema.withPattern : Schema → String → Schema
  | .mk a1 a2 a3 a4 a5 _ a7 a8 a9 a10 a11 a12 a13 a14 a15 a16 a17 a18 a19 a20 a21, v =>
    .mk a1 a2 a3 a4 a5 v a7 a8 a9 a10 a11 a12 a13 a14 a15 a16 a17 a18 a19 a20 a21

def Schema.withFormat : Schema → String → Schema
  | .mk a1 a2 a3 a4 a5 a6 _ a8 a9 a10 a11 a12 a13 a14 a15 a16 a17 a18 a19 a20 a21, v =>
    .mk a1 a2 a3 a4 a5 a6 v a8 a9 a10 a11 a12 a13 a14 a15 a16 a17 a18 a19 a20 a21

def Schema.withMinimum : Schema → Option Rat → Schema
  | .mk a1 a2 a3 a4 a5 a6 a7 _ a9 a10 a11 a12 a13 a14 a15 a16 a17 a18 a19 a20 a21, v =>
    .mk a1 a2 a3 a4 a5 a6 a7 v a9 a10 a11 a12 a13 a14 a15 a16 a17 a18 a19 a20 a21

def Schema.withMaximum : Schema → Option Rat → Schema
  | .mk a1 a2 a3 a4 a5 a6 a7 a8 _ a10 a11 a12 a13 a14 a15 a16 a17 a18 a19 a20 a21, v =>
    .mk a1 a2 a3 a4 a5 a6 a7 a8 v a10 a11 a12 a13 a14 a15 a16 a17 a18 a19 a20 a21

def Schema.withExclusiveMinimum : Schema → Option Rat → Schema
  | .mk a1 a2 a3 a4 a5 a6 a7 a8 a9 _ a11 a12 a13 a14 a15 a16 a17 a18 a19 a20 a21, v =>
    .mk a1 a2 a3 a4 a5 a6 a7 a8 a9 v a11 a12 a13 a14 a15 a16 a17 a18 a19 a20 a21

def Schema.withExclusiveMaximum : Schema → Option Rat → Schema
  | .mk a1 a2 a3 a4 a5 a6 a7 a8 a9 a10 _ a12 a13 a14 a15 a16 a17 a18 a19 a20 a21, v =>
    .mk a1 a2 a3 a4 a5 a6 a7 a8 a9 a10 v a12 a13 a14 a15 a16 a17 a18 a19 a20 a21

def Schema.withMultipleOf : Schema → Option Rat → Schema
  | .mk a1 a2 a3 a4 a5 a6 a7 a8 a9 a10 a11 _ a13 a14 a15 a16 a17 a18 a19 a20 a21, v =>
    .mk a1 a2 a3 a4 a5 a6 a7 a8 a9 a10 a11 v a13 a14 a15 a16 a17 a18 a19 a20 a21

def Schema.withProperties : Schema → Option (List (String × Schema)) → Schema
  | .mk a1 a2 a3 a4 a5 a6 a7 a8 a9 a10 a11 a12 _ a14 a15 a16 a17 a18 a19 a20 a21, v =>
    .mk a1 a2 a3 a4 a5 a6 a7 a8 a9 a10 a11 a12 v a14 a15 a16 a17 a18 a19 a20 a21

def Schema.withRequired : Schema → List String → Schema
  | .mk a1 a2 a3 a4 a5 a6 a7 a8 a9 a10 a11 a12 a13 _ a15 a16 a17 a18 a19 a20 a21, v =>
    .mk a1 a2 a3 a4 a5 a6 a7 a8 a9 a10 a11 a12 a13 v a15 a16 a17 a18 a19 a20 a21

def Schema.withAdditionalProperties : Schema → Option APSchema → Schema
  | .mk a1 a2 a3 a4 a5 a6 a7 a8 a9 a10 a11 a12 a13 a14 _ a16 a17 a18 a19 a20 a21, v =>
    .mk a1 a2 a3 a4 a5 a6 a7 a8 a9 a10 a11 a12 a13 a14 v a16 a17 a18 a19 a20 a21

def Schema.withItems : Schema → Option ItemsSchema → Schema
  | .mk a1 a2 a3 a4 a5 a6 a7 a8 a9 a10 a11 a12 a13 a14 a15 _ a17 a18 a19 a20 a21, v =>
    .mk a1 a2 a3 a4 a5 a6 a7 a8 a9 a10 a11 a12 a13 a14 a15 v a17 a18 a19 a20 a21

def Schema.withMinItems : Schema → Option Nat → Schema
  | .mk a1 a2 a3 a4 a5 a6 a7 a8 a9 a10 a11 a12 a13 a14 a15 a16 _ a18 a19 a20 a21, v =>
    .mk a1 a2 a3 a4 a5 a6 a7 a8 a9 a10 a11 a12 a13 a14 a15 a16 v a18 a19 a20 a21

def Schema.withMaxItems : Schema → Option Nat → Schema
  | .mk a1 a2 a3 a4 a5 a6 a7 a8 a9 a10 a11 a12 a13 a14 a15 a16 a17 _ a19 a20 a21, v =>
    .mk a1 a2 a3 a4 a5 a6 a7 a8 a9 a10 a11 a12 a13 a14 a15 a16 a17 v a19 a20 a21

def Schema.withOneOf : Schema → List Schema → Schema
  | .mk a1 a2 a3 a4 a5 a6 a7 a8 a9 a10 a11 a12 a13 a14 a15 a16 a17 a18 _ a20 a21, v =>
    .mk a1 a2 a3 a4 a5 a6 a7 a8 a9 a10 a11 a12 a13 a14 a15 a16 a17 a18 v a20 a21

def Schema.withAnyOf : Schema → List Schema → Schema
  | .mk a1 a2 a3 a4 a5 a6 a7 a8 a9 a10 a11 a12 a13 a14 a15 a16 a17 a18 a19 _ a21, v =>
    .mk a1 a2 a3 a4 a5 a6 a7 a8 a9 a10 a11 a12 a13 a14 a15 a16 a17 a18 a19 v a21

def Schema.withAllOf : Schema → List Schema → Schema
  | .mk a1 a2 a3 a4 a5 a6 a7 a8 a9 a10 a11 a12 a13 a14 a15 a16 a17 a18 a19 a20 _, v =>
    .mk a1 a2 a3 a4 a5 a6 a7 a8 a9 a10 a11 a12 a13 a14 a15 a16 a17 a18 a19 a20 v

/-- The schema copy Go's `generateByType` makes when several types are
declared: `modifiedSchema := *schema; modifiedSchema.Type = chosen`. -/
def setType (s : Schema) (t : String) : Schema := s.withType (.single t)

/-- Generator configuration (Go `Generator` minus its random state): the
recursion ceiling `MaxDepth` and the `GenerateAllFields` flag. -/
structure Config where
  maxDepth : Nat
  generateAllFields : Bool

/-- The mutable random state of one `Generator`, plus the abstract external
capabilities.  `rstream`/`rpos` model the `math/rand` source (each `Intn`,
`Int63n` or `Float64` call reads `rstream rpos` and advances `rpos`);
`fstream`/`fwords`/`fstrs` with cursor `fpos` model the gofakeit faker
(letters, words, and format-specific values such as emails or UUIDs);
`patGen` models the reggen pattern capability (`none` = the pattern does
not compile); `cancelled` models the `context.Context` being done. -/
structure GenState where
  rstream : Nat → Nat
  rpos : Nat
  fstream : Nat → Nat
  fpos : Nat
  fwords : Nat → String
  fstrs : String → Nat → String
  patGen : String → Option String
  cancelled : Bool

/-- Go `rand.Intn n` / `rand.Int63n n` for `n > 0`: a uniform draw in
`[0, n)`, advancing the stream by one. -/
def intn (st : GenState) (n : Nat) : Nat × GenState :=
  (st.rstream st.rpos % n, { st with rpos := st.rpos + 1 })

/-- Go `rand.Float64`: a draw in `[0, 1)` with 53 bits of precision,
advancing the stream by one. -/
def qdraw (st : GenState) : Rat × GenState :=
  (((st.rstream st.rpos % 2 ^ 53 : Nat) : Rat) / (2 ^ 53 : Rat),
   { st with rpos := st.rpos + 1 })

/-- Go `g.faker.Word()`: the next word of the abstract word stream. -/
def fakerWord (st : GenState) : String × GenState :=
  (st.fwords st.fpos, { st with fpos := st.fpos + 1 })

/-- One gofakeit format call (`UUID()`, `Email()`, ... keyed by a tag): the
next value of the abstract per-format stream. -/
def fakerFormatValue (st : GenState) (tag : String) : String × GenState :=
  (st.fstrs tag st.fpos, { st with fpos := st.fpos + 1 })

/-- One lowercase letter derived from a faker entropy value. -/
def letterChar (n : Nat) : Char := Char.ofNat (97 + n % 26)

/-- Go `g.faker.LetterN n`: exactly `n` random letters. -/
def letterN (st : GenState) (n : Nat) : String × GenState :=
  (⟨(List.range n).map fun i => letterChar (st.fstream (st.fpos + i))⟩,
   { st with fpos := st.fpos + n })

/-- Errors of the generation engine.  Each constructor is one `fmt.Errorf`
site of the Go code; `fieldError`/`itemError` are the `%w` wrappings of the
object-property and array-item loops.  `outOfFuel` is the interpreter's
fuel exhaustion and corresponds to no Go behaviour. -/
inductive GenError where
  | cancelled
  | depthExceeded
  | invalidSchema (path : String) (message : String)
  | emptyOneOf
  | emptyAnyOf
  | emptyAllOf
  | noType
  | unsupportedType (t : String)
  | invalidPattern
  | boundsConflict
  | unsupportedItems
  | fieldError (name : String) (e : GenError)
  | itemError (idx : Nat) (e : GenError)
  | outOfFuel
deriving DecidableEq

/-- Go `result[:length]` on the strings the faker produces (ASCII words, so
byte slicing and character slicing agree). -/
def strTake (s : String) (n : Nat) : String := ⟨s.data.take n⟩

/-- The word-concatenation loop of Go `randomString`:
`for len(result) < length { result += g.faker.Word() }`.  The Go loop
terminates because gofakeit words are nonempty; the fuel argument makes the
Lean version total, and `randomString` passes fuel `length`, which suffices
whenever every word has length at least one. -/
def wordLoop (target : Nat) : Nat → String → GenState → String × GenState
  | 0, acc, st => (acc, st)
  | fuel + 1, acc, st =>
    if target ≤ acc.length then (acc, st)
    else
      let (w, st1) := fakerWord st
      wordLoop target fuel (acc ++ w) st1

/-- Go `Generator.randomString`: empty for nonpositive length, `LetterN`
for lengths up to 3, otherwise words concatenated to at least the target
length and truncated to it. -/
def randomString (st : GenState) (len : Nat) : String × GenState :=
  if len = 0 then ("", st)
  else if len ≤ 3 then letterN st len
  else
    let (w, st1) := fakerWord st
    let (acc, st2) := wordLoop len len w st1
    (if len < acc.length then strTake acc len else acc, st2)

/-- Go `Generator.generateStringFromPattern`: delegate to the reggen
capability; a pattern it cannot compile is a hard error. -/
def generateStringFromPattern (st : GenState) (pattern : String) :
    Except GenError String × GenState :=
  match st.patGen pattern with
  | none => (.error .invalidPattern, st)
  | some out => (.ok out, st)

/-- Go `Generator.generateStringFromFormat`: the switch over format names,
each arm one gofakeit call ("uri" and "url" share the `URL()` call), with
unknown formats falling back to a generic word. -/
def generateStringFromFormat (st : GenState) (format : String) :
    String × GenState :=
  match format with
  | "uuid" => fakerFormatValue st "uuid"
  | "email" => fakerFormatValue st "email"
  | "date-time" => fakerFormatValue st "date-time"
  | "date" => fakerFormatValue st "date"
  | "time" => fakerFormatValue st "time"
  | "ipv4" => fakerFormatValue st "ipv4"
  | "ipv6" => fakerFormatValue st "ipv6"
  | "uri" => fakerFormatValue st "url"
  | "url" => fakerFormatValue st "url"
  | "hostname" => fakerFormatValue st "hostname"
  | _ => fakerWord st

/-- Go `Generator.generateString`: pattern first, then format, then the
plain bounded-length path (`minLength` defaulting to 0, `maxLength` to 20,
`maxLength` clamped up to `minLength`, length drawn uniformly in the
inclusive range).  Only the plain path reads the length bounds. -/
def generateString (s : Schema) (st : GenState) :
    Except GenError String × GenState :=
  if s.pattern ≠ "" then generateStringFromPattern st s.pattern
  else if s.format ≠ "" then
    let (out, st1) := generateStringFromFormat st s.format
    (.ok out, st1)
  else
    let minLen := s.minLength.getD 0
    let maxLen0 := s.maxLength.getD 20
    let maxLen := if maxLen0 < minLen then minLen else maxLen0
    let (len, st1) :=
      if minLen < maxLen then
        let (d, st1) := intn st (maxLen - minLen + 1)
        (minLen + d, st1)
      else (minLen, st)
    let (out, st2) := randomString st1 len
    (.ok out, st2)

/-- Go `math.Round`: round half away from zero. -/
def goRound (q : Rat) : Int :=
  if 0 ≤ q then (q + 1 / 2).floor else -(-q + 1 / 2).floor

/-- Go `int64(x)` on a float: truncation toward zero. -/
def goTrunc (q : Rat) : Int := if 0 ≤ q then q.floor else q.ceil

/-- The "Determine minimum" block of Go `generateNumber`: `minimum` if
present, else `exclusiveMinimum` (ceiled when generating an integer) if
present, else 0. -/
def effectiveMin (s : Schema) (isInteger : Bool) : Rat :=
  match s.minimum with
  | some m => m
  | none =>
    match s.exclusiveMinimum with
    | some em => if isInteger then ((em.ceil : Int) : Rat) else em
    | none => 0

/-- The "Determine maximum" block of Go `generateNumber`: `maximum` if
present, else `exclusiveMaximum` (floored, then decremented by one, when
generating an integer) if present, else 1000. -/
def effectiveMax (s : Schema) (isInteger : Bool) : Rat :=
  match s.maximum with
  | some m => m
  | none =>
    match s.exclusiveMaximum with
    | some em => if isInteger then ((em.floor : Int) : Rat) - 1 else em
    | none => 1000

/-- Go `Generator.generateNumber`: resolve the effective bounds; fail on a
conflict; draw an integer uniformly on `[ceil min, floor max]` (with the
collapsed-range edge policy) or a float uniformly on `[min, max)`; then
apply the `multipleOf` rounding-and-nudge heuristic. -/
def generateNumber (s : Schema) (isInteger : Bool) (st : GenState) :
    Except GenError Value × GenState :=
  let qmin : Rat := effectiveMin s isInteger
  let qmax : Rat := effectiveMax s isInteger
  if qmax < qmin then (.error .boundsConflict, st)
  else
    let drawn : Rat × GenState :=
      if isInteger then
        let intMin : Int := qmin.ceil
        let intMax : Int := qmax.floor
        if intMax < intMin then ((intMin : Rat), st)
        else
          let (d, st1) := intn st (intMax - intMin + 1).toNat
          (((intMin + (d : Int) : Int) : Rat), st1)
      else
        let (f, st1) := qdraw st
        (qmin + f * (qmax - qmin), st1)
    let adjusted : Rat :=
      match s.multipleOf with
      | some mo =>
        if 0 < mo then
          let r1 := ((goRound (drawn.1 / mo) : Int) : Rat) * mo
          let r2 := if r1 < qmin then r1 + mo else r1
          let r3 := if qmax < r2 then r2 - mo else r2
          r3
        else drawn.1
      | none => drawn.1
    if isInteger then (.ok (.int (goTrunc adjusted)), drawn.2)
    else (.ok (.num adjusted), drawn.2)

/-- Go `Generator.generateBoolean`: `rand.Intn(2) == 1`. -/
def generateBoolean (st : GenState) : Bool × GenState :=
  let (d, st1) := intn st 2
  (d = 1, st1)

/-- The type of the recursive generation callback the helper routines
invoke (Go `g.generate(schema, depth)` partially applied): schema, depth,
state in; value-or-error and state out. -/
abbrev Rec := Schema → Nat → GenState → Except GenError Value × GenState

/-- Insertion into a Go `map[string]interface{}`: replace the entry for the
key if present, otherwise append it (insertion order is kept so that the
association list enumerates the map; the serializer sorts keys anyway). -/
def mapSet (l : List (String × Value)) (k : String) (v : Value) :
    List (String × Value) :=
  match l with
  | [] => [(k, v)]
  | (k0, v0) :: rest =>
    if k0 = k then (k, v) :: rest else (k0, v0) :: mapSet rest k v

/-- The property loop of Go `generateObject`: for each declared property in
iteration order, generate it when it is required or `GenerateAllFields` is
set, returning the wrapped error of the first failing field. -/
def genProps (g : Config) (gen : Rec) (required : List String) (depth : Nat) :
    List (String × Schema) → List (String × Value) → GenState →
    Except GenError (List (String × Value)) × GenState
  | [], acc, st => (.ok acc, st)
  | (name, ps) :: rest, acc, st =>
    if required.contains name || g.generateAllFields then
      match gen ps (depth + 1) st with
      | (.error e, st1) => (.error (.fieldError name e), st1)
      | (.ok v, st1) => genProps g gen required depth rest (mapSet acc name v) st1
    else genProps g gen required depth rest acc st

/-- The `additionalProperties: true` arm of Go `generateObject`: `numExtra`
entries whose key and value are both faker words. -/
def genExtraWords : Nat → List (String × Value) → GenState →
    List (String × Value) × GenState
  | 0, acc, st => (acc, st)
  | n + 1, acc, st =>
    let (k, st1) := fakerWord st
    let (w, st2) := fakerWord st1
    genExtraWords n (mapSet acc k (.str w)) st2

/-- The `additionalProperties: <schema>` arm of Go `generateObject`:
`numExtra` iterations, each drawing a faker word as key and generating a
value from the sub-schema at `depth+1`; a failing generation is silently
skipped (`if err == nil`), so this loop can never fail. -/
def genExtraAP (gen : Rec) (aps : Schema) (depth : Nat) :
    Nat → List (String × Value) → GenState →
    List (String × Value) × GenState
  | 0, acc, st => (acc, st)
  | n + 1, acc, st =>
    let (k, st1) := fakerWord st
    match gen aps (depth + 1) st1 with
    | (.ok v, st2) => genExtraAP gen aps depth n (mapSet acc k v) st2
    | (.error _, st2) => genExtraAP gen aps depth n acc st2

/-- Go `Generator.generateObject`: an empty object when `properties` is
nil; otherwise the property loop, then (only when `GenerateAllFields` is
set and `additionalProperties` is non-nil) the synthesized extra entries.
The sub-schema arm re-parses the raw map, which for a well-formed schema
value always succeeds and is modelled as already parsed. -/
def generateObject (g : Config) (gen : Rec) (s : Schema) (depth : Nat)
    (st : GenState) : Except GenError Value × GenState :=
  match s.properties with
  | none => (.ok (.obj []), st)
  | some props =>
    match genProps g gen s.required depth props [] st with
    | (.error e, st1) => (.error e, st1)
    | (.ok fields, st1) =>
      match s.additionalProperties, g.generateAllFields with
      | some ap, true =>
        match ap with
        | .boolean true =>
          let (numExtra, st2) := intn st1 3
          let (fields2, st3) := genExtraWords numExtra fields st2
          (.ok (.obj fields2), st3)
        | .boolean false => (.ok (.obj fields), st1)
        | .schema aps =>
          let (numExtra, st2) := intn st1 3
          let (fields2, st3) := genExtraAP gen aps depth numExtra fields st2
          (.ok (.obj fields2), st3)
        | .other => (.ok (.obj fields), st1)
      | _, _ => (.ok (.obj fields), st1)

/-- The no-items arm of Go `generateArray`: every slot a faker word. -/
def wordFill : Nat → GenState → List Value × GenState
  | 0, st => ([], st)
  | n + 1, st =>
    let (w, st1) := fakerWord st
    let (rest, st2) := wordFill n st1
    (.str w :: rest, st2)

/-- The single-schema item loop of Go `generateArray`: each element
generated from the item schema at `depth+1`, the first failure wrapped
with its index. -/
def genItemsSingle (gen : Rec) (itemSchema : Schema) (depth : Nat) :
    Nat → Nat → GenState → Except GenError (List Value) × GenState
  | _, 0, st => (.ok [], st)
  | idx, n + 1, st =>
    match gen itemSchema (depth + 1) st with
    | (.error e, st1) => (.error (.itemError idx e), st1)
    | (.ok v, st1) =>
      match genItemsSingle gen itemSchema depth (idx + 1) n st1 with
      | (.error e, st2) => (.error e, st2)
      | (.ok rest, st2) => (.ok (v :: rest), st2)

/-- The tuple item loop of Go `generateArray`: element `i` from the `i`-th
positional schema while one exists, generic faker words beyond the tuple
length.  (Go re-parses each positional schema from its raw map, which for
well-formed schema values always succeeds and is modelled as parsed.) -/
def genItemsTuple (gen : Rec) (schemas : List Schema) (depth : Nat) :
    Nat → Nat → GenState → Except GenError (List Value) × GenState
  | _, 0, st => (.ok [], st)
  | idx, n + 1, st =>
    match schemas.get? idx with
    | some isch =>
      match gen isch (depth + 1) st with
      | (.error e, st1) => (.error (.itemError idx e), st1)
      | (.ok v, st1) =>
        match genItemsTuple gen schemas depth (idx + 1) n st1 with
        | (.error e, st2) => (.error e, st2)
        | (.ok rest, st2) => (.ok (v :: rest), st2)
    | none =>
      let (w, st1) := fakerWord st
      match genItemsTuple gen schemas depth (idx + 1) n st1 with
      | (.error e, st2) => (.error e, st2)
      | (.ok rest, st2) => (.ok (.str w :: rest), st2)

/-- Go's draw-a-count-in-range idiom (`length := min; if max > min
{ length = min + rand.Intn(max-min+1) }`), as used by `generateArray`. -/
def drawCount (lo hi : Nat) (st : GenState) : Nat × GenState :=
  if lo < hi then
    let (d, st1) := intn st (hi - lo + 1)
    (lo + d, st1)
  else (lo, st)

/-- Go `Generator.generateArray`: `minItems` defaulting to 0, `maxItems`
to 5 and clamped up to `minItems`, the element count drawn uniformly, then
the items dispatch (generic words / one schema / tuple / hard error). -/
def generateArray (gen : Rec) (s : Schema) (depth : Nat) (st : GenState) :
    Except GenError Value × GenState :=
  let minItems := s.minItems.getD 0
  let maxItems0 := s.maxItems.getD 5
  let maxItems := if maxItems0 < minItems then minItems else maxItems0
  let (len, st1) := drawCount minItems maxItems st
  match s.items with
  | none =>
    let (ws, st2) := wordFill len st1
    (.ok (.arr ws), st2)
  | some (.one isch) =>
    match genItemsSingle gen isch depth 0 len st1 with
    | (.error e, st2) => (.error e, st2)
    | (.ok vs, st2) => (.ok (.arr vs), st2)
  | some (.tuple schemas) =>
    match genItemsTuple gen schemas depth 0 len st1 with
    | (.error e, st2) => (.error e, st2)
    | (.ok vs, st2) => (.ok (.arr vs), st2)
  | some .other => (.error .unsupportedItems, st1)

/-- Go `Generator.handleOneOf`: error on an empty list (a check the engine
never reaches, see `generate`), otherwise a uniformly drawn branch,
generated at the *same* depth. -/
def handleOneOf (gen : Rec) (s : Schema) (depth : Nat) (st : GenState) :
    Except GenError Value × GenState :=
  match s.oneOf with
  | [] => (.error .emptyOneOf, st)
  | b0 :: bs =>
    let (i, st1) := intn st (bs.length + 1)
    gen ((b0 :: bs).getD i b0) depth st1

/-- Go `Generator.handleAnyOf`: identical mechanics to `handleOneOf`. -/
def handleAnyOf (gen : Rec) (s : Schema) (depth : Nat) (st : GenState) :
    Except GenError Value × GenState :=
  match s.anyOf with
  | [] => (.error .emptyAnyOf, st)
  | b0 :: bs =>
    let (i, st1) := intn st (bs.length + 1)
    gen ((b0 :: bs).getD i b0) depth st1

/-- Go `Generator.handleAllOf`: generate from the first branch only, at the
same depth, consuming no randomness for the choice. -/
def handleAllOf (gen : Rec) (s : Schema) (depth : Nat) (st : GenState) :
    Except GenError Value × GenState :=
  match s.allOf with
  | [] => (.error .emptyAllOf, st)
  | b0 :: _ => gen b0 depth st

/-- The single-type switch of Go `generateByType`: dispatch on the type
name to the per-type generators, reading every other constraint from the
schema. -/
def generateForType (g : Config) (gen : Rec) (typeName : String)
    (s : Schema) (depth : Nat) (st : GenState) :
    Except GenError Value × GenState :=
  match typeName with
  | "string" =>
    match generateString s st with
    | (.error e, st1) => (.error e, st1)
    | (.ok out, st1) => (.ok (.str out), st1)
  | "number" => generateNumber s false st
  | "integer" => generateNumber s true st
  | "boolean" =>
    let (b, st1) := generateBoolean st
    (.ok (.bool b), st1)
  | "object" => generateObject g gen s depth st
  | "array" => generateArray gen s depth st
  | "null" => (.ok .null, st)
  | t => (.error (.unsupportedType t), st)

/-- Go `Generator.generateByType`: with several declared types, draw one
uniformly and recurse on a copy of the schema whose type field is replaced
by the chosen single type (`setType`); that recursive call immediately
re-dispatches on the single type (or reports "no type specified" when the
chosen name is empty), which is inlined here. -/
def generateByType (g : Config) (gen : Rec) (s : Schema) (depth : Nat)
    (st : GenState) : Except GenError Value × GenState :=
  match s.type.getTypes with
  | [] => (.error .noType, st)
  | [t] => generateForType g gen t s depth st
  | t0 :: t1 :: ts =>
    let (i, st1) := intn st (ts.length + 2)
    let chosen := (t0 :: t1 :: ts).getD i t0
    if chosen = "" then (.error .noType, st1)
    else generateForType g gen chosen (setType s chosen) depth st1

/-- Go `Generator.generateWithContext`, the core recursive engine:
cancellation check, depth check, `const`, `enum`, `oneOf`/`anyOf`/`allOf`
(only when non-empty), type-based dispatch, inference from `properties`
or `items`, and the default empty object.  The fuel argument makes the
recursion structural; every Go run is reproduced by any sufficiently large
fuel. -/
def generateWithContext (g : Config) :
    Nat → Schema → Nat → GenState → Except GenError Value × GenState
  | 0, _, _, st => (.error .outOfFuel, st)
  | fuel + 1, s, depth, st =>
    if st.cancelled then (.error .cancelled, st)
    else if g.maxDepth ≤ depth then (.error .depthExceeded, st)
    else
      match s.const with
      | some c => (.ok c, st)
      | none =>
        match s.enum with
        | e0 :: es =>
          let (i, st1) := intn st (es.length + 1)
          (.ok ((e0 :: es).getD i e0), st1)
        | [] =>
          if 0 < s.oneOf.length then
            handleOneOf (fun s2 d2 st2 => generateWithContext g fuel s2 d2 st2) s depth st
          else if 0 < s.anyOf.length then
            handleAnyOf (fun s2 d2 st2 => generateWithContext g fuel s2 d2 st2) s depth st
          else if 0 < s.allOf.length then
            handleAllOf (fun s2 d2 st2 => generateWithContext g fuel s2 d2 st2) s depth st
          else if s.type.isEmpty = false then
            generateByType g (fun s2 d2 st2 => generateWithContext g fuel s2 d2 st2) s depth st
          else
            match s.properties with
            | some _ =>
              generateObject g (fun s2 d2 st2 => generateWithContext g fuel s2 d2 st2) s depth st
            | none =>
              match s.items with
              | some _ =>
                generateArray (fun s2 d2 st2 => generateWithContext g fuel s2 d2 st2) s depth st
              | none => (.ok (.obj []), st)

/-- A validation error (Go `ValidationError`): the dotted/indexed path of
the offending sub-schema and a message.  (Go renders the numbers with
`%f`/`%d`; the model renders them with `toString`, which only affects the
spelling inside the message text.) -/
structure ValidationError where
  path : String
  message : String
deriving DecidableEq

/-- The path of a property child: `fieldName` at the root, otherwise
`basePath.fieldName`. -/
def joinPath (basePath name : String) : String :=
  if basePath = "" then name else basePath ++ "." ++ name

/-- The property recursion of Go `ValidateWithDetails`, iterating the
`properties` map in its (unspecified) iteration order, modelled by the
association-list order. -/
def validateProps (v : Schema → String → List ValidationError) :
    List (String × Schema) → String → List ValidationError
  | [], _ => []
  | (name, ps) :: rest, basePath =>
    v ps (joinPath basePath name) ++ validateProps v rest basePath

/-- The composition recursion of Go `ValidateWithDetails`: branch `i` of
keyword `key` gets path `basePath.key[i]` (with a leading dot when the
base path is empty, as in the Go `Sprintf`). -/
def validateBranches (v : Schema → String → List ValidationError)
    (key : String) (basePath : String) :
    List Schema → Nat → List ValidationError
  | [], _ => []
  | b :: rest, i =>
    v b (basePath ++ "." ++ key ++ "[" ++ toString i ++ "]") ++
      validateBranches v key basePath rest (i + 1)

/-- Go `Schema.ValidateWithDetails`: the four bound-pair checks at the
current node, then the recursion into properties and into the
`oneOf`/`anyOf`/`allOf` branches, concatenated in that order. -/
def ValidateWithDetails : Nat → Schema → String → List ValidationError
  | 0, _, _ => []
  | fuel + 1, s, basePath =>
    let e1 : List ValidationError :=
      match s.minimum, s.maximum with
      | some mn, some mx =>
        if mx < mn then
          [⟨basePath, "minimum (" ++ toString mn ++
            ") cannot be greater than maximum (" ++ toString mx ++ ")"⟩]
        else []
      | _, _ => []
    let e2 : List ValidationError :=
      match s.exclusiveMinimum, s.exclusiveMaximum with
      | some mn, some mx =>
        if mx ≤ mn then
          [⟨basePath, "exclusiveMinimum (" ++ toString mn ++
            ") must be less than exclusiveMaximum (" ++ toString mx ++ ")"⟩]
        else []
      | _, _ => []
    let e3 : List ValidationError :=
      match s.minLength, s.maxLength with
      | some mn, some mx =>
        if mx < mn then
          [⟨basePath, "minLength (" ++ toString mn ++
            ") cannot be greater than maxLength (" ++ toString mx ++ ")"⟩]
        else []
      | _, _ => []
    let e4 : List ValidationError :=
      match s.minItems, s.maxItems with
      | some mn, some mx =>
        if mx < mn then
          [⟨basePath, "minItems (" ++ toString mn ++
            ") cannot be greater than maxItems (" ++ toString mx ++ ")"⟩]
        else []
      | _, _ => []
    let eProps : List ValidationError :=
      match s.properties with
      | none => []
      | some props =>
        validateProps (fun s2 p2 => ValidateWithDetails fuel s2 p2) props basePath
    let eOne :=
      validateBranches (fun s2 p2 => ValidateWithDetails fuel s2 p2) "oneOf"
        basePath s.oneOf 0
    let eAny :=
      validateBranches (fun s2 p2 => ValidateWithDetails fuel s2 p2) "anyOf"
        basePath s.anyOf 0
    let eAll :=
      validateBranches (fun s2 p2 => ValidateWithDetails fuel s2 p2) "allOf"
        basePath s.allOf 0
    e1 ++ e2 ++ e3 ++ e4 ++ eProps ++ eOne ++ eAny ++ eAll

/-- Go `Schema.Validate`: the first detailed error, if any. -/
def Validate (fuel : Nat) (s : Schema) : Option ValidationError :=
  match ValidateWithDetails fuel s "" with
  | [] => none
  | e :: _ => some e

/-- Go `Generator.Generate` after parsing: refuse generation when the
validator reports an error, otherwise run the engine at depth 0. -/
def Generate (g : Config) (fuel : Nat) (s : Schema) (st : GenState) :
    Except GenError Value × GenState :=
  match Validate fuel s with
  | some e => (.error (.invalidSchema e.path e.message), st)
  | none => generateWithContext g fuel s 0 st

def joinComma : List String → String
  | [] => ""
  | [x] => x
  | x :: y :: rest => x ++ "," ++ joinComma (y :: rest)

def quoteStr (s : String) : String := "\"" ++ s ++ "\""

/-- Byte-wise (here character-wise, all strings being ASCII) string order,
the order in which Go's `encoding/json` sorts map keys. -/
def charListLt : List Char → List Char → Bool
  | [], [] => false
  | [], _ :: _ => true
  | _ :: _, [] => false
  | c1 :: r1, c2 :: r2 =>
    if c1.toNat < c2.toNat then true
    else if c2.toNat < c1.toNat then false
    else charListLt r1 r2

def strLtB (a b : String) : Bool := charListLt a.data b.data

/-- Insert a rendered object member into a list sorted by key (Go's
`encoding/json` serializes map keys in sorted order). -/
def insertByKey (p : String × String) :
    List (String × String) → List (String × String)
  | [] => [p]
  | q :: rest =>
    if strLtB p.1 q.1 then p :: q :: rest else q :: insertByKey p rest

def sortByKey : List (String × String) → List (String × String)
  | [] => []
  | p :: rest => insertByKey p (sortByKey rest)

/-- The serialization Go's `json.Marshal` performs on generated values,
abstracted: arrays in order, object members sorted by key, strings quoted
(escaping omitted: the generator only emits escape-free strings). -/
def serialize : Nat → Value → String
  | 0, _ => ""
  | fuel + 1, v =>
    match v with
    | .null => "null"
    | .bool true => "true"
    | .bool false => "false"
    | .int n => toString n
    | .num q => toString q
    | .str s => quoteStr s
    | .arr elems => "[" ++ joinComma (elems.map fun e => serialize fuel e) ++ "]"
    | .obj fields =>
      let rendered := fields.map fun p => (p.1, quoteStr p.1 ++ ":" ++ serialize fuel p.2)
      "\x7b" ++ joinComma ((sortByKey rendered).map fun p => p.2) ++ "\x7d"

/-- Go `Generator.GenerateBytes`: generate, then serialize. -/
def GenerateBytes (g : Config) (fuel : Nat) (s : Schema) (st : GenState) :
    Except GenError String × GenState :=
  match Generate g fuel s st with
  | (.error e, st1) => (.error e, st1)
  | (.ok v, st1) => (.ok (serialize fuel v), st1)

/-! ## Concrete fixtures

A default configuration (Go `NewGenerator` defaults: `MaxDepth = 10`,
`GenerateAllFields = false`), an all-fields configuration, a depth-1
configuration, and a concrete deterministic state standing for one seeded
run (entropy streams enumerate 0,1,2,…; the word stream always yields
"lorem"; the format streams yield a fixed realistic value per format). -/

def gcfg : Config := ⟨10, false⟩

def cfgAll : Config := ⟨10, true⟩

def gcfg1 : Config := ⟨1, false⟩

def st0 : GenState :=
  ⟨fun i => i, 0, fun i => i, 0, fun _ => "lorem",
   fun _ _ => "john.doe@example.com", fun _ => none, false⟩

def strSchema : Schema := Schema.empty.withType (.single "string")

def boolSchema : Schema := Schema.empty.withType (.single "boolean")

def nullSchema : Schema := Schema.empty.withType (.single "null")

/-- A string schema with `minLength 1, maxLength 5` (variable length, so
generating it consumes one length draw). -/
def strBounded : Schema :=
  (strSchema.withMinLength (some 1)).withMaxLength (some 5)

/-- The determinism failing input: an object with two required
variable-length string properties, in one map iteration order… -/
def s1a : Schema :=
  ((Schema.empty.withType (.single "object")).withProperties
    (some [("a", strBounded), ("b", strBounded)])).withRequired ["a", "b"]

/-- …and the same object schema (the identical property map) in the other
iteration order. -/
def s1b : Schema :=
  ((Schema.empty.withType (.single "object")).withProperties
    (some [("b", strBounded), ("a", strBounded)])).withRequired ["a", "b"]

/-- A schema whose `oneOf`, `anyOf` and `allOf` keywords are present as
empty sequences.  (After parsing, Go cannot distinguish an absent
composition keyword from an empty one: both give a length-0 slice.) -/
def emptyCompSchema : Schema :=
  ((Schema.empty.withOneOf []).withAnyOf []).withAllOf []

/-- A `oneOf` wrapped in a `oneOf` around a null schema: two composition
descents before any concrete value. -/
def nestedOneOf : Schema :=
  Schema.empty.withOneOf [Schema.empty.withOneOf [nullSchema]]

/-- A string schema asking for `format: email` together with
`maxLength: 5`. -/
def emailSchema : Schema :=
  (strSchema.withFormat "email").withMaxLength (some 5)

/-- An integer schema whose range `[1/5, 4/5]` contains no integer
(`ceil(min) = 1 > 0 = floor(max)`) and which also declares
`multipleOf: 5`. -/
def collapseSchema : Schema :=
  (((Schema.empty.withType (.single "integer")).withMinimum
    (some (1 / 5))).withMaximum (some (4 / 5))).withMultipleOf (some 5)

/-- An object schema whose `required` lists a name (`"b"`) that has no
declared property schema. -/
def missingReqSchema : Schema :=
  ((Schema.empty.withType (.single "object")).withProperties
    (some [("a", boolSchema)])).withRequired ["a", "b"]

/-- A schema with an unsupported type name. -/
def badTypeSchema : Schema :=
  Schema.empty.withType (.single "unsupported_type")

/-- An object schema whose `additionalProperties` sub-schema always fails
to generate (its type name is unsupported). -/
def badAPSchema : Schema :=
  (((Schema.empty.withType (.single "object")).withProperties
    (some [("name", strSchema)])).withRequired
    ["name"]).withAdditionalProperties (some (.schema badTypeSchema))

/-- A schema with contradictory length bounds (3 > 1). -/
def badLenSchemaA : Schema :=
  (Schema.empty.withMinLength (some 3)).withMaxLength (some 1)

/-- Another schema with contradictory length bounds (5 > 2). -/
def badLenSchemaB : Schema :=
  (Schema.empty.withMinLength (some 5)).withMaxLength (some 2)

/-- Two erroneous properties in one map iteration order… -/
def s7a : Schema :=
  Schema.empty.withProperties (some [("a", badLenSchemaA), ("b", badLenSchemaB)])

/-- …and the same property map in the other iteration order. -/
def s7b : Schema :=
  Schema.empty.withProperties (some [("b", badLenSchemaB), ("a", badLenSchemaA)])

/-- Claim C1, theorem at the failing input: `s1a` and `s1b` are the same
parsed schema — the same property map, read in two iteration orders Go's
`range` may produce, with all other fields equal — yet the two runs from
the same seeded state produce different serialized bytes, because
`generateObject` advances the random stream once per generated property in
iteration order.  This contradicts the package's own determinism contract
(README "Deterministic Generation", `TestDeterministicGeneration`). -/
theorem determinism_map_order_bug :
    (∃ l1 l2, s1a.properties = some l1 ∧ s1b.properties = some l2 ∧
      l1.Perm l2) ∧
    s1a.type = s1b.type ∧ s1a.required = s1b.required ∧
    (GenerateBytes gcfg 10 s1a st0).1 = .ok "\x7b\"a\":\"a\",\"b\":\"bc\"\x7d" ∧
    (GenerateBytes gcfg 10 s1b st0).1 = .ok "\x7b\"a\":\"bc\",\"b\":\"a\"\x7d" ∧
    ("\x7b\"a\":\"a\",\"b\":\"bc\"\x7d" : String) ≠ "\x7b\"a\":\"bc\",\"b\":\"a\"\x7d" := by
  exact ⟨⟨_, _, rfl, rfl, List.Perm.swap _ _ _⟩, rfl, rfl, rfl, rfl, by decide⟩

/-- Claim C6, counterexample: a schema whose `oneOf`/`anyOf`/`allOf` are
present as empty sequences does not fail with an empty-composition error;
the `len > 0` guards in `generate` skip the composition handlers entirely
and generation falls through (here to the default empty object). -/
theorem empty_composition_cex :
    emptyCompSchema.oneOf = [] ∧ emptyCompSchema.anyOf = [] ∧
    emptyCompSchema.allOf = [] ∧
    (Generate gcfg 5 emptyCompSchema st0).1 = .ok (.obj []) := by
  exact ⟨rfl, rfl, rfl, rfl⟩

/-- Claim C3, counterexample: with `maxDepth = 1`, a schema that nests two
`oneOf` descents above a null schema still generates successfully — the
composition handlers pass `depth` through unchanged, so the inner calls
run at depth 0; if every descent incremented the depth as the claim
states, the second descent would be at depth 2 ≥ 1 and generation would
have to fail with a depth-exceeded error. -/
theorem depth_composition_cex :
    gcfg1.maxDepth = 1 ∧
    (generateWithContext gcfg1 10 nestedOneOf 0 st0).1 = .ok .null := by
  exact ⟨rfl, rfl⟩

/-- Claim C2, counterexample: with `format: email` and `maxLength: 5` the
format path is taken and the length bounds are never consulted — the
generated string (a 20-character email from the faker capability) violates
`maxLength`. -/
theorem string_bounds_cex :
    emailSchema.maxLength = some 5 ∧
    (Generate gcfg 5 emailSchema st0).1 = .ok (.str "john.doe@example.com") ∧
    ¬ ((("john.doe@example.com" : String)).length ≤ 5) := by
  exact ⟨rfl, rfl, by decide⟩

/-- Claim C8, counterexample: for the integer schema with
`minimum = 1/5`, `maximum = 4/5`, `multipleOf = 5`, the collapsed range
yields `ceil(min) = 1`, but the `multipleOf` adjustment then rounds
`1/5 → 0` and the two nudges cancel, so the generator returns 0 — not
`ceil(min)` as the claim states. -/
theorem number_collapse_cex :
    (generateNumber collapseSchema true st0).1 = .ok (.int 0) ∧
    (Generate gcfg 5 collapseSchema st0).1 = .ok (.int 0) ∧
    (1 / 5 : Rat).ceil = 1 ∧ (0 : Int) ≠ 1 := by
  exact ⟨rfl, rfl, by decide, by decide⟩

/-- Claim C5, counterexample: with `required = ["a", "b"]` but only `"a"`
declared under `properties`, the generated object contains only `"a"` —
the property loop iterates declared properties, so the required name
`"b"` is silently absent. -/
theorem required_missing_cex :
    missingReqSchema.required = ["a", "b"] ∧
    (Generate gcfg 5 missingReqSchema st0).1 = .ok (.obj [("a", .bool false)]) ∧
    (∀ v0, ("b", v0) ∈ [(("a" : String), Value.bool false)] → False) := by
  refine ⟨rfl, rfl, fun v0 h => ?_⟩
  simp only [List.mem_singleton, Prod.mk.injEq] at h
  exact absurd h.1 (by decide)

/-- Claim C4, counterexample: generating `badAPSchema` with
`GenerateAllFields` set draws one synthesized `additionalProperties`
entry, whose sub-generation fails (unsupported type, second conjunct) —
yet `Generate` succeeds and returns an object without the entry: the
error was silently swallowed by the `if err == nil` guard instead of
being propagated. -/
theorem ap_error_swallow_cex :
    (Generate cfgAll 5 badAPSchema st0).1 = .ok (.obj [("name", .str "")]) ∧
    (generateWithContext cfgAll 4 badTypeSchema 1 st0).1 =
      .error (.unsupportedType "unsupported_type") := by
  exact ⟨rfl, rfl⟩

/-- Claim C7, counterexample: `s7a` and `s7b` are the same parsed schema
(the same property map in two iteration orders), yet the detailed
validator reports their two child errors in different orders — the
property recursion follows Go's unspecified map iteration order, so no
fixed "document order" of the error list exists. -/
theorem validation_order_cex :
    (∃ l1 l2, s7a.properties = some l1 ∧ s7b.properties = some l2 ∧
      l1.Perm l2) ∧
    (ValidateWithDetails 10 s7a "").map ValidationError.path = ["a", "b"] ∧
    (ValidateWithDetails 10 s7b "").map ValidationError.path = ["b", "a"] ∧
    ValidateWithDetails 10 s7a "" ≠ ValidateWithDetails 10 s7b "" := by
  exact ⟨⟨_, _, rfl, rfl, List.Perm.swap _ _ _⟩, rfl, rfl, by decide⟩

/-- `List.getD` returns a member of the list or the default. -/
theorem getD_mem_or_eq {α : Type} :
    ∀ (l : List α) (i : Nat) (d : α), l.getD i d ∈ l ∨ l.getD i d = d
  | [], _, _ => .inr rfl
  | x :: xs, 0, _ => .inl (List.mem_cons_self x xs)
  | x :: xs, i + 1, d =>
    match getD_mem_or_eq xs i d with
    | .inl h => .inl (List.mem_cons_of_mem x h)
    | .inr h => .inr h

/-- Claim C9 (confirmed): on a live call (not cancelled, below the depth
ceiling), a schema with a non-null `const` generates exactly that literal
with the random state untouched — before `enum`, composition and type
keywords are even considered — and a schema with no `const` and a
non-empty `enum` generates a member of the declared sequence. -/
theorem const_enum_fidelity (g : Config) (fuel depth : Nat) (s : Schema)
    (st : GenState) (hc : st.cancelled = false) (hd : depth < g.maxDepth) :
    (∀ c, s.const = some c →
      generateWithContext g (fuel + 1) s depth st = (.ok c, st)) ∧
    (∀ e0 es, s.const = none → s.enum = e0 :: es →
      ∃ v st1, generateWithContext g (fuel + 1) s depth st = (.ok v, st1) ∧
        v ∈ s.enum) := by
  have hnd : ¬ (g.maxDepth ≤ depth) := Nat.not_le.mpr hd
  constructor
  · intro c hcst
    simp [generateWithContext, hc, hnd, hcst]
  · intro e0 es hcst hen
    refine ⟨(e0 :: es).getD (intn st (es.length + 1)).1 e0,
      (intn st (es.length + 1)).2, ?_, ?_⟩
    · simp [generateWithContext, hc, hnd, hcst, hen]
    · rw [hen]
      rcases getD_mem_or_eq (e0 :: es) (intn st (es.length + 1)).1 e0 with h | h
      · exact h
      · rw [h]; exact List.mem_cons_self e0 es

/-- A schema with `const: "constant_value"`. -/
def constSchema : Schema :=
  strSchema.withConst (some (.str "constant_value"))

/-- A schema with `enum: ["red", "green", "blue"]`. -/
def enumSchema : Schema :=
  strSchema.withEnum [.str "red", .str "green", .str "blue"]

theorem const_enum_fidelity_witness :
    (generateWithContext gcfg 5 constSchema 0 st0 =
      (.ok (.str "constant_value"), st0)) ∧
    (∃ v st1, generateWithContext gcfg 5 enumSchema 0 st0 = (.ok v, st1) ∧
      v ∈ enumSchema.enum) := by
  exact ⟨(const_enum_fidelity gcfg 4 0 constSchema st0 rfl (by decide)).1 _ rfl,
    (const_enum_fidelity gcfg 4 0 enumSchema st0 rfl (by decide)).2 _ _ rfl rfl⟩

/-- `generateString` reads only `pattern`, `format`, `minLength` and
`maxLength` from the schema. -/
theorem generateString_ext (s1 s2 : Schema) (st : GenState)
    (h1 : s1.pattern = s2.pattern) (h2 : s1.format = s2.format)
    (h3 : s1.minLength = s2.minLength) (h4 : s1.maxLength = s2.maxLength) :
    generateString s1 st = generateString s2 st := by
  unfold generateString
  rw [h1, h2, h3, h4]

/-- `generateNumber` reads only the five numeric bound fields. -/
theorem generateNumber_ext (s1 s2 : Schema) (isInteger : Bool) (st : GenState)
    (h1 : s1.minimum = s2.minimum) (h2 : s1.maximum = s2.maximum)
    (h3 : s1.exclusiveMinimum = s2.exclusiveMinimum)
    (h4 : s1.exclusiveMaximum = s2.exclusiveMaximum)
    (h5 : s1.multipleOf = s2.multipleOf) :
    generateNumber s1 isInteger st = generateNumber s2 isInteger st := by
  unfold generateNumber effectiveMin effectiveMax
  rw [h1, h2, h3, h4, h5]

/-- `generateObject` reads only `properties`, `required` and
`additionalProperties`. -/
theorem generateObject_ext (g : Config) (gen : Rec) (s1 s2 : Schema)
    (depth : Nat) (st : GenState)
    (h1 : s1.properties = s2.properties) (h2 : s1.required = s2.required)
    (h3 : s1.additionalProperties = s2.additionalProperties) :
    generateObject g gen s1 depth st = generateObject g gen s2 depth st := by
  unfold generateObject
  rw [h1, h2, h3]

/-- `generateArray` reads only `items`, `minItems` and `maxItems`. -/
theorem generateArray_ext (gen : Rec) (s1 s2 : Schema) (depth : Nat)
    (st : GenState)
    (h1 : s1.items = s2.items) (h2 : s1.minItems = s2.minItems)
    (h3 : s1.maxItems = s2.maxItems) :
    generateArray gen s1 depth st = generateArray gen s2 depth st := by
  unfold generateArray
  rw [h1, h2, h3]

/-- Claim C10 (confirmed): when several types are declared, `generateByType`
draws one and dispatches on the copy `setType s chosen` — a schema that has
the chosen single type and is identical to the original in every other
field (first conjunct), so the per-type generator, which never reads the
type field, behaves on the copy exactly as on the original (second
conjunct); the third conjunct is the dispatch equation itself. -/
theorem multi_type_dispatch_frame (g : Config) (gen : Rec) (s : Schema)
    (depth : Nat) (st : GenState) (t0 t1 : String) (ts : List String)
    (h : s.type.getTypes = t0 :: t1 :: ts) :
    (∀ t, (setType s t).type = .single t ∧
      (setType s t).enum = s.enum ∧ (setType s t).const = s.const ∧
      (setType s t).minLength = s.minLength ∧
      (setType s t).maxLength = s.maxLength ∧
      (setType s t).pattern = s.pattern ∧ (setType s t).format = s.format ∧
      (setType s t).minimum = s.minimum ∧ (setType s t).maximum = s.maximum ∧
      (setType s t).exclusiveMinimum = s.exclusiveMinimum ∧
      (setType s t).exclusiveMaximum = s.exclusiveMaximum ∧
      (setType s t).multipleOf = s.multipleOf ∧
      (setType s t).properties = s.properties ∧
      (setType s t).required = s.required ∧
      (setType s t).additionalProperties = s.additionalProperties ∧
      (setType s t).items = s.items ∧
      (setType s t).minItems = s.minItems ∧
      (setType s t).maxItems = s.maxItems ∧
      (setType s t).oneOf = s.oneOf ∧ (setType s t).anyOf = s.anyOf ∧
      (setType s t).allOf = s.allOf) ∧
    (∀ t d2 st2, generateForType g gen t (setType s t) d2 st2 =
      generateForType g gen t s d2 st2) ∧
    (generateByType g gen s depth st =
      (let p := intn st (ts.length + 2)
       let chosen := (t0 :: t1 :: ts).getD p.1 t0
       if chosen = "" then (.error .noType, p.2)
       else generateForType g gen chosen (setType s chosen) depth p.2)) := by
  obtain ⟨a1, a2, a3, a4, a5, a6, a7, a8, a9, a10, a11, a12, a13, a14, a15,
    a16, a17, a18, a19, a20, a21⟩ := s
  refine ⟨?_, ?_, ?_⟩
  · intro t
    exact ⟨rfl, rfl, rfl, rfl, rfl, rfl, rfl, rfl, rfl, rfl, rfl, rfl, rfl,
      rfl, rfl, rfl, rfl, rfl, rfl, rfl, rfl⟩
  · intro t d2 st2
    have hS := generateString_ext
      (setType (.mk a1 a2 a3 a4 a5 a6 a7 a8 a9 a10 a11 a12 a13 a14 a15 a16
        a17 a18 a19 a20 a21) t)
      (.mk a1 a2 a3 a4 a5 a6 a7 a8 a9 a10 a11 a12 a13 a14 a15 a16 a17 a18
        a19 a20 a21) st2 rfl rfl rfl rfl
    have hNf := generateNumber_ext
      (setType (.mk a1 a2 a3 a4 a5 a6 a7 a8 a9 a10 a11 a12 a13 a14 a15 a16
        a17 a18 a19 a20 a21) t)
      (.mk a1 a2 a3 a4 a5 a6 a7 a8 a9 a10 a11 a12 a13 a14 a15 a16 a17 a18
        a19 a20 a21) false st2 rfl rfl rfl rfl rfl
    have hNt := generateNumber_ext
      (setType (.mk a1 a2 a3 a4 a5 a6 a7 a8 a9 a10 a11 a12 a13 a14 a15 a16
        a17 a18 a19 a20 a21) t)
      (.mk a1 a2 a3 a4 a5 a6 a7 a8 a9 a10 a11 a12 a13 a14 a15 a16 a17 a18
        a19 a20 a21) true st2 rfl rfl rfl rfl rfl
    have hO := generateObject_ext g gen
      (setType (.mk a1 a2 a3 a4 a5 a6 a7 a8 a9 a10 a11 a12 a13 a14 a15 a16
        a17 a18 a19 a20 a21) t)
      (.mk a1 a2 a3 a4 a5 a6 a7 a8 a9 a10 a11 a12 a13 a14 a15 a16 a17 a18
        a19 a20 a21) d2 st2 rfl rfl rfl
    have hA := generateArray_ext gen
      (setType (.mk a1 a2 a3 a4 a5 a6 a7 a8 a9 a10 a11 a12 a13 a14 a15 a16
        a17 a18 a19 a20 a21) t)
      (.mk a1 a2 a3 a4 a5 a6 a7 a8 a9 a10 a11 a12 a13 a14 a15 a16 a17 a18
        a19 a20 a21) d2 st2 rfl rfl rfl
    unfold generateForType
    rw [hS, hNf, hNt, hO, hA]
  · unfold generateByType
    rw [h]

/-- The `type: ["string", "null"]` schema used by the tests. -/
def multiTypeSchema : Schema :=
  Schema.empty.withType (.multiple ["string", "null"])

/-- A concrete recursive callback: the engine itself with fuel 3. -/
def genW : Rec := fun s2 d2 st2 => generateWithContext gcfg 3 s2 d2 st2

theorem multi_type_dispatch_frame_witness :
    (setType multiTypeSchema "string").minLength = multiTypeSchema.minLength ∧
    (setType multiTypeSchema "string").type = .single "string" ∧
    generateByType gcfg genW multiTypeSchema 0 st0 =
      (let p := intn st0 2
       let chosen := (["string", "null"]).getD p.1 "string"
       if chosen = "" then (.error .noType, p.2)
       else generateForType gcfg genW chosen (setType multiTypeSchema chosen)
         0 p.2) := by
  have h := multi_type_dispatch_frame gcfg genW multiTypeSchema 0 st0
    "string" "null" [] rfl
  exact ⟨(h.1 "string").2.2.2.1, (h.1 "string").1, h.2.2⟩

/-- `goTrunc` is the identity on integers. -/
theorem goTrunc_intCast (n : Int) : goTrunc ((n : Int) : Rat) = n := by
  unfold goTrunc
  split <;> simp [Rat.floor, Rat.ceil]

/-- Claim C8 theorem (amended): `generateNumber` resolves the effective
minimum as `minimum`, else `exclusiveMinimum` (ceiled for integers), else
0, and the effective maximum as `maximum`, else `exclusiveMaximum`
(floored then decremented for integers), else 1000; it fails — always and
only with the bounds-conflict error — exactly when the effective minimum
exceeds the effective maximum; and for integers whose range collapses
under rounding it returns `ceil(min)` *provided `multipleOf` is absent or
nonpositive* (with a positive `multipleOf` the rounding-and-nudge step can
replace that value, see the counterexample). -/
theorem number_bounds_resolution (s : Schema) (isInteger : Bool)
    (st : GenState) :
    ((generateNumber s isInteger st).1 = .error .boundsConflict ↔
      effectiveMax s isInteger < effectiveMin s isInteger) ∧
    (∀ e, (generateNumber s isInteger st).1 = .error e →
      e = .boundsConflict) ∧
    (effectiveMin s isInteger ≤ effectiveMax s isInteger →
      ∃ v st1, generateNumber s isInteger st = (.ok v, st1)) ∧
    ((∀ mo ∈ s.multipleOf, mo ≤ 0) →
      (effectiveMax s true).floor < (effectiveMin s true).ceil →
      effectiveMin s true ≤ effectiveMax s true →
      generateNumber s true st =
        (.ok (.int (effectiveMin s true).ceil), st)) := by
  refine ⟨?_, ?_, ?_, ?_⟩
  · by_cases hlt : effectiveMax s isInteger < effectiveMin s isInteger
    · simp [generateNumber, hlt]
    · cases isInteger <;> simp [generateNumber, hlt]
  · intro e he
    by_cases hlt : effectiveMax s isInteger < effectiveMin s isInteger
    · simp [generateNumber, hlt] at he
      exact he.symm
    · cases isInteger <;> simp [generateNumber, hlt] at he
  · intro hle
    have hlt := not_lt.mpr hle
    cases isInteger <;>
      exact ⟨_, _, by unfold generateNumber; rw [if_neg hlt]; rfl⟩
  · intro hmo hcollapse hle
    have hlt := not_lt.mpr hle
    unfold generateNumber
    rw [if_neg hlt]
    simp only [if_pos hcollapse, if_true]
    rcases hm : s.multipleOf with _ | mo
    · simp [hm, goTrunc_intCast]
    · have hmole : mo ≤ 0 := hmo mo (by rw [hm]; rfl)
      have : ¬ (0 < mo) := not_lt.mpr hmole
      simp [hm, this, goTrunc_intCast]

/-- The collapsed integer range `[1/5, 4/5]` without a `multipleOf`. -/
def collapseNoMO : Schema :=
  ((Schema.empty.withType (.single "integer")).withMinimum
    (some (1 / 5))).withMaximum (some (4 / 5))

theorem number_bounds_resolution_witness :
    generateNumber collapseNoMO true st0 =
      (.ok (.int (effectiveMin collapseNoMO true).ceil), st0) ∧
    (∃ v st1, generateNumber collapseNoMO false st0 = (.ok v, st1)) ∧
    (∀ e, (generateNumber collapseNoMO true st0).1 = .error e →
      e = .boundsConflict) := by
  have h := number_bounds_resolution collapseNoMO true st0
  have h2 := number_bounds_resolution collapseNoMO false st0
  refine ⟨h.2.2.2 ?_ (by decide) (by decide), h2.2.2.1 (by decide), h.2.1⟩
  intro mo hmo
  rw [show collapseNoMO.multipleOf = none from rfl] at hmo
  exact absurd hmo (by simp)

theorem strLength_mk (l : List Char) : (⟨l⟩ : String).length = l.length := rfl

theorem strTake_length (s : String) (n : Nat) :
    (strTake s n).length = min n s.length := by
  rw [strTake, strLength_mk]
  exact List.length_take _ _

theorem letterN_length (st : GenState) (n : Nat) :
    (letterN st n).1.length = n := by
  simp [letterN, strLength_mk]

/-- The word loop reaches the target length as long as there is at least
one unit of fuel per missing character and every word is nonempty. -/
theorem wordLoop_length (target : Nat) :
    ∀ (fuel : Nat) (acc : String) (st : GenState),
      (∀ i, 1 ≤ (st.fwords i).length) →
      target ≤ acc.length + fuel →
      target ≤ (wordLoop target fuel acc st).1.length ∧
        (wordLoop target fuel acc st).2.fwords = st.fwords
  | 0, acc, st, _, hfuel => by
    constructor
    · simpa [wordLoop] using hfuel
    · rfl
  | fuel + 1, acc, st, hw, hfuel => by
    unfold wordLoop
    by_cases h : target ≤ acc.length
    · simp [h]
    · simp only [h, if_false]
      have hword := hw st.fpos
      have hrec := wordLoop_length target fuel (acc ++ st.fwords st.fpos)
        { st with fpos := st.fpos + 1 } hw
        (by
          have : (acc ++ st.fwords st.fpos).length =
              acc.length + (st.fwords st.fpos).length :=
            String.length_append acc (st.fwords st.fpos)
          omega)
      exact ⟨hrec.1, hrec.2⟩

/-- With nonempty faker words, `randomString` returns a string of exactly
the requested length. -/
theorem randomString_length (st : GenState) (len : Nat)
    (hw : ∀ i, 1 ≤ (st.fwords i).length) :
    (randomString st len).1.length = len := by
  unfold randomString
  by_cases h0 : len = 0
  · simp [h0]
  · by_cases h3 : len ≤ 3
    · simp [h0, h3, letterN_length]
    · simp only [h0, h3, if_false]
      have hrec := wordLoop_length len len (st.fwords st.fpos)
        { st with fpos := st.fpos + 1 } hw (Nat.le_add_left len _)
      rcases hloop : wordLoop len len (st.fwords st.fpos)
        { st with fpos := st.fpos + 1 } with ⟨acc, st2⟩
    -- hrec with hloop rewriting
      rw [hloop] at hrec
      have h1 : len ≤ acc.length := hrec.1
      by_cases hlt : len < acc.length
      · simp [fakerWord, hloop, hlt, strTake_length]
        omega
      · simp [fakerWord, hloop, hlt]
        omega

/-- Claim C2 theorem (amended): on the plain bounded-length path — no
`pattern` and no `format`, the only path that reads the length bounds —
every generated string satisfies `minLength ≤ len ≤ maxLength` whenever
those bounds are specified (and consistent, as the pre-generation
validator guarantees), assuming the faker's words are nonempty as
gofakeit's are.  The pattern and format paths ignore the bounds entirely
(see the counterexample). -/
theorem string_bounds_plain (s : Schema) (st : GenState)
    (hp : s.pattern = "") (hf : s.format = "")
    (hw : ∀ i, 1 ≤ (st.fwords i).length)
    (hv : ∀ a b, s.minLength = some a → s.maxLength = some b → a ≤ b) :
    ∃ out st1, generateString s st = (.ok out, st1) ∧
      (∀ a, s.minLength = some a → a ≤ out.length) ∧
      (∀ b, s.maxLength = some b → out.length ≤ b) := by
  have hw3 : ∀ len, (randomString st len).1.length = len :=
    fun len => randomString_length st len hw
  have hw2 : ∀ (rp len : Nat),
      (randomString { st with rpos := rp } len).1.length = len :=
    fun rp len => randomString_length { st with rpos := rp } len hw
  unfold generateString
  rw [if_neg (by simp [hp]), if_neg (by simp [hf])]
  rcases hmn : s.minLength with _ | a <;> rcases hmx : s.maxLength with _ | b
  · -- no bounds: nothing to prove about the length
    refine ⟨_, _, rfl, ?_, ?_⟩
    · intro x hx
      cases hx
    · intro x hx
      cases hx
  · -- only maxLength = b
    simp only [Option.getD_some, Option.getD_none]
    rw [if_neg (Nat.not_lt_zero b)]
    by_cases h0b : 0 < b
    · rw [if_pos h0b]
      simp only [intn]
      refine ⟨_, _, rfl, ?_, ?_⟩
      · intro x hx
        cases hx
      · intro x hx
        injection hx with hx
        subst hx
        rw [hw2]
        have := Nat.mod_lt (st.rstream st.rpos) (show 0 < b - 0 + 1 by omega)
        omega
    · rw [if_neg h0b]
      refine ⟨_, _, rfl, ?_, ?_⟩
      · intro x hx
        cases hx
      · intro x hx
        injection hx with hx
        subst hx
        rw [show ((0 : Nat), st).2 = st from rfl, show ((0 : Nat), st).1 = 0
          from rfl, hw3]
        omega
  · -- only minLength = a
    simp only [Option.getD_some, Option.getD_none]
    by_cases hcl : 20 < a
    · rw [if_pos hcl, if_neg (lt_irrefl a)]
      refine ⟨_, _, rfl, ?_, ?_⟩
      · intro x hx
        injection hx with hx
        subst hx
        exact le_of_eq (hw3 a).symm
      · intro x hx
        cases hx
    · rw [if_neg hcl]
      by_cases ha20 : a < 20
      · rw [if_pos ha20]
        simp only [intn]
        refine ⟨_, _, rfl, ?_, ?_⟩
        · intro x hx
          injection hx with hx
          subst hx
          rw [hw2]
          omega
        · intro x hx
          cases hx
      · rw [if_neg ha20]
        refine ⟨_, _, rfl, ?_, ?_⟩
        · intro x hx
          injection hx with hx
          subst hx
          exact le_of_eq (hw3 a).symm
        · intro x hx
          cases hx
  · -- both bounds; the validator guarantees a ≤ b
    have hab : a ≤ b := hv a b hmn hmx
    simp only [Option.getD_some]
    rw [if_neg (Nat.not_lt.mpr hab)]
    by_cases hareqb : a < b
    · rw [if_pos hareqb]
      simp only [intn]
      refine ⟨_, _, rfl, ?_, ?_⟩
      · intro x hx
        injection hx with hx
        subst hx
        rw [hw2]
        omega
      · intro x hx
        injection hx with hx
        subst hx
        rw [hw2]
        have := Nat.mod_lt (st.rstream st.rpos) (show 0 < b - a + 1 by omega)
        omega
    · rw [if_neg hareqb]
      refine ⟨_, _, rfl, ?_, ?_⟩
      · intro x hx
        injection hx with hx
        subst hx
        exact le_of_eq (hw3 a).symm
      · intro x hx
        injection hx with hx
        subst hx
        rw [show ((a, st) : Nat × GenState).2 = st from rfl,
          show ((a, st) : Nat × GenState).1 = a from rfl, hw3]
        omega

/-- A plain string schema with `minLength 5, maxLength 10`. -/
def strBothBounds : Schema :=
  (strSchema.withMinLength (some 5)).withMaxLength (some 10)

theorem string_bounds_plain_witness :
    ∃ out st1, generateString strBothBounds st0 = (.ok out, st1) ∧
      (∀ a, strBothBounds.minLength = some a → a ≤ out.length) ∧
      (∀ b, strBothBounds.maxLength = some b → out.length ≤ b) := by
  refine string_bounds_plain strBothBounds st0 rfl rfl ?_ ?_
  · intro i
    show 1 ≤ ("lorem" : String).length
    decide
  · intro a b ha hb
    injection ha with ha
    injection hb with hb
    omega

/-- The property names of a generated object. -/
def keys (l : List (String × Value)) : List String := l.map Prod.fst

theorem mem_keys_mapSet (l : List (String × Value)) (k : String) (v : Value)
    (k2 : String) : k2 ∈ keys (mapSet l k v) ↔ k2 = k ∨ k2 ∈ keys l := by
  induction l with
  | nil => simp [mapSet, keys]
  | cons p rest ih =>
    obtain ⟨k0, v0⟩ := p
    by_cases h : k0 = k
    · subst h
      have he : mapSet ((k0, v0) :: rest) k0 v = (k0, v) :: rest := by
        simp [mapSet]
      rw [he]
      simp only [keys, List.map_cons, List.mem_cons]
      tauto
    · have he : mapSet ((k0, v0) :: rest) k v = (k0, v0) :: mapSet rest k v := by
        simp [mapSet, h]
      rw [he]
      simp only [keys, List.map_cons, List.mem_cons]
      rw [show k2 ∈ List.map Prod.fst (mapSet rest k v) ↔
        k2 = k ∨ k2 ∈ keys rest from ih]
      tauto

theorem genExtraWords_keys_mono (k : String) :
    ∀ (n : Nat) (acc : List (String × Value)) (st : GenState),
      k ∈ keys acc → k ∈ keys (genExtraWords n acc st).1
  | 0, acc, st, h => h
  | n + 1, acc, st, h => by
    unfold genExtraWords
    exact genExtraWords_keys_mono k n _ _ ((mem_keys_mapSet _ _ _ _).mpr (.inr h))

theorem genExtraAP_keys_mono (gen : Rec) (aps : Schema) (depth : Nat)
    (k : String) :
    ∀ (n : Nat) (acc : List (String × Value)) (st : GenState),
      k ∈ keys acc → k ∈ keys (genExtraAP gen aps depth n acc st).1
  | 0, acc, st, h => h
  | n + 1, acc, st, h => by
    unfold genExtraAP
    rcases hg : gen aps (depth + 1) { st with fpos := st.fpos + 1 } with ⟨res, st2⟩
    cases res with
    | ok v =>
      simp only [fakerWord, hg]
      exact genExtraAP_keys_mono gen aps depth k n _ _
        ((mem_keys_mapSet _ _ _ _).mpr (.inr h))
    | error e =>
      simp only [fakerWord, hg]
      exact genExtraAP_keys_mono gen aps depth k n _ _ h

/-- The keys produced by the property loop: exactly the keys already in
the accumulator plus the declared properties that are selected (required,
or `GenerateAllFields`). -/
theorem genProps_keys (g : Config) (gen : Rec) (required : List String)
    (depth : Nat) :
    ∀ (props : List (String × Schema)) (acc : List (String × Value))
      (st st1 : GenState) (fields : List (String × Value)),
      genProps g gen required depth props acc st = (.ok fields, st1) →
      ∀ k, k ∈ keys fields ↔
        (k ∈ keys acc ∨ ∃ ps, (k, ps) ∈ props ∧
          (required.contains k || g.generateAllFields) = true)
  | [], acc, st, st1, fields, h, k => by
    simp only [genProps] at h
    injection h with h1 h2
    injection h1 with h1
    subst h1
    simp
  | (name, ps) :: rest, acc, st, st1, fields, h, k => by
    by_cases hsel : (required.contains name || g.generateAllFields) = true
    · rw [genProps, if_pos hsel] at h
      rcases hg : gen ps (depth + 1) st with ⟨res, st2⟩
      rw [hg] at h
      cases res with
      | error e => cases h
      | ok v =>
        have ih := genProps_keys g gen required depth rest
          (mapSet acc name v) st2 st1 fields h k
        rw [ih, mem_keys_mapSet]
        constructor
        · rintro ((hk | hacc) | ⟨ps2, hmem, hsel2⟩)
          · refine .inr ⟨ps, List.mem_cons.2 (.inl ?_), ?_⟩
            · rw [hk]
            · rw [hk]
              exact hsel
          · exact .inl hacc
          · exact .inr ⟨ps2, List.mem_cons.2 (.inr hmem), hsel2⟩
        · rintro (hacc | ⟨ps2, hmem, hsel2⟩)
          · exact .inl (.inr hacc)
          · rcases List.mem_cons.1 hmem with heq | htail
            · injection heq with hk _
              exact .inl (.inl hk)
            · exact .inr ⟨ps2, htail, hsel2⟩
    · rw [genProps, if_neg hsel] at h
      have ih := genProps_keys g gen required depth rest acc st st1 fields h k
      rw [ih]
      constructor
      · rintro (hacc | ⟨ps2, hmem, hsel2⟩)
        · exact .inl hacc
        · exact .inr ⟨ps2, List.mem_cons.2 (.inr hmem), hsel2⟩
      · rintro (hacc | ⟨ps2, hmem, hsel2⟩)
        · exact .inl hacc
        · rcases List.mem_cons.1 hmem with heq | htail
          · injection heq with hk _
            rw [hk] at hsel2
            exact absurd hsel2 hsel
          · exact .inr ⟨ps2, htail, hsel2⟩

/-- Claim C5 theorem (amended): when `generateAllFields` is false the
generated object's keys are exactly the declared properties that are also
listed in `required` — a required name with no declared property schema is
silently absent (see the counterexample) — and no other property appears;
when `generateAllFields` is true every declared property is present. -/
theorem object_field_selection (g : Config) (gen : Rec) (s : Schema)
    (depth : Nat) (st st1 : GenState) (fields : List (String × Value))
    (h : generateObject g gen s depth st = (.ok (.obj fields), st1)) :
    (g.generateAllFields = false →
      ∀ k, k ∈ keys fields ↔
        ∃ props ps, s.properties = some props ∧ (k, ps) ∈ props ∧
          s.required.contains k = true) ∧
    (g.generateAllFields = true →
      ∀ props ps k, s.properties = some props → (k, ps) ∈ props →
        k ∈ keys fields) := by
  rcases hprops : s.properties with _ | props
  · simp only [generateObject, hprops] at h
    injection h with h1 h2
    injection h1 with h1
    injection h1 with h1
    constructor
    · intro _ k
      rw [← h1]
      simp [keys, hprops]
    · intro _ props2 ps k hp2 hmem
      cases hp2
  · simp only [generateObject, hprops] at h
    rcases hgp : genProps g gen s.required depth props [] st with ⟨res, st2⟩
    rw [hgp] at h
    cases res with
    | error e => simp at h
    | ok flds =>
      have hkeys := genProps_keys g gen s.required depth props [] st st2 flds
        hgp
      constructor
      · intro hAF k
        have hfe : flds = fields := by
          rcases hap : s.additionalProperties with _ | ap
          · simp only [hap, hAF, Prod.mk.injEq, Except.ok.injEq,
              Value.obj.injEq] at h
            exact h.1
          · simp only [hap, hAF, Prod.mk.injEq, Except.ok.injEq,
              Value.obj.injEq] at h
            exact h.1
        subst hfe
        rw [hkeys k]
        simp only [keys, List.map_nil, List.not_mem_nil, false_or, hAF,
          Bool.or_false]
        constructor
        · rintro ⟨ps, hmem, hreq⟩
          exact ⟨props, ps, rfl, hmem, hreq⟩
        · rintro ⟨props2, ps, hp2, hmem, hreq⟩
          injection hp2 with hp2
          subst hp2
          exact ⟨ps, hmem, hreq⟩
      · intro hAF props2 ps k hp2 hmem
        injection hp2 with hp2
        subst hp2
        have hk : k ∈ keys flds :=
          (hkeys k).mpr (.inr ⟨ps, hmem, by rw [hAF, Bool.or_true]⟩)
        rcases hap : s.additionalProperties with _ | ap
        · simp only [hap, hAF, Prod.mk.injEq, Except.ok.injEq,
            Value.obj.injEq] at h
          rw [← h.1]
          exact hk
        · cases ap with
          | boolean b =>
            cases b with
            | false =>
              simp only [hap, hAF, Prod.mk.injEq, Except.ok.injEq,
                Value.obj.injEq] at h
              rw [← h.1]
              exact hk
            | true =>
              simp only [hap, hAF, intn, Prod.mk.injEq, Except.ok.injEq,
                Value.obj.injEq] at h
              rw [← h.1]
              exact genExtraWords_keys_mono k _ _ _ hk
          | schema aps =>
            simp only [hap, hAF, intn, Prod.mk.injEq, Except.ok.injEq,
              Value.obj.injEq] at h
            rw [← h.1]
            exact genExtraAP_keys_mono gen aps depth k _ _ _ hk
          | other =>
            simp only [hap, hAF, Prod.mk.injEq, Except.ok.injEq,
              Value.obj.injEq] at h
            rw [← h.1]
            exact hk

/-- The `required_field`/`optional_field` object schema of the tests. -/
def twoFieldSchema : Schema :=
  ((Schema.empty.withType (.single "object")).withProperties
    (some [("required_field", boolSchema), ("optional_field", boolSchema)])).withRequired
    ["required_field"]

theorem object_field_selection_witness :
    ("required_field" : String) ∈
      keys [(("required_field" : String), Value.bool false)] ∧
    (("optional_field" : String) ∈
      keys [(("required_field" : String), Value.bool false)] → False) := by
  have h := object_field_selection gcfg genW twoFieldSchema 0 st0
    { st0 with rpos := 1 } [("required_field", .bool false)] rfl
  constructor
  · exact (h.1 rfl "required_field").mpr
      ⟨_, _, rfl, List.mem_cons_self _ _, rfl⟩
  · intro hmem
    obtain ⟨props, ps, hp, hmem2, hreq⟩ := (h.1 rfl "optional_field").mp hmem
    injection hp with hp
    subst hp
    exact absurd hreq (by decide)

/-- Claim C4 theorem (amended): an error generating a selected declared
property propagates immediately to the caller, wrapped with the field name
(first conjunct); but the synthesized `additionalProperties` loop cannot
fail at all — when the sub-generation fails, the entry is silently dropped
and the loop continues, so a callback that always fails adds nothing
(second conjunct). -/
theorem error_propagation_and_ap_swallow (g : Config) (gen : Rec)
    (required : List String) (depth : Nat) (name : String) (ps : Schema)
    (rest : List (String × Schema)) (acc : List (String × Value))
    (st st1 : GenState) (e : GenError)
    (hsel : (required.contains name || g.generateAllFields) = true)
    (hgen : gen ps (depth + 1) st = (.error e, st1)) :
    genProps g gen required depth ((name, ps) :: rest) acc st =
      (.error (.fieldError name e), st1) ∧
    (∀ (aps : Schema) (n : Nat) (acc2 : List (String × Value))
      (st2 : GenState),
      (∀ s2 d2 st3, ∃ e2 st4, gen s2 d2 st3 = (.error e2, st4)) →
      (genExtraAP gen aps depth n acc2 st2).1 = acc2) := by
  constructor
  · rw [genProps, if_pos hsel, hgen]
  · intro aps n
    induction n with
    | zero =>
      intro acc2 st2 hfail
      rfl
    | succ m ih =>
      intro acc2 st2 hfail
      unfold genExtraAP
      obtain ⟨e2, st4, hf⟩ :=
        hfail aps (depth + 1) { st2 with fpos := st2.fpos + 1 }
      simp only [fakerWord, hf]
      exact ih acc2 st4 hfail

/-- A callback that fails on every input (the exhausted engine). -/
def genFail : Rec := fun s2 d2 st3 => generateWithContext cfgAll 0 s2 d2 st3

theorem error_propagation_and_ap_swallow_witness :
    genProps cfgAll genFail ["f"] 0 [("f", badTypeSchema)] [] st0 =
      (.error (.fieldError "f" .outOfFuel), st0) ∧
    (genExtraAP genFail badTypeSchema 0 2 [] st0).1 = [] := by
  have h := error_propagation_and_ap_swallow cfgAll genFail ["f"] 0 "f"
    badTypeSchema [] [] st0 st0 .outOfFuel (by decide) rfl
  exact ⟨h.1, h.2 badTypeSchema 2 [] st0 (fun s2 d2 st3 => ⟨.outOfFuel, st3, rfl⟩)⟩

/-- An object schema with a single required property `name : ps` and
nothing else. -/
def propOnly (name : String) (ps : Schema) : Schema :=
  .mk (.single "object") [] none none none "" "" none none none none none
    (some [(name, ps)]) [name] none none none none [] [] []

/-- An array schema with exactly one element generated from `ps`
(`minItems = maxItems = 1`) and nothing else. -/
def itemOnly (ps : Schema) : Schema :=
  .mk (.single "array") [] none none none "" "" none none none none none
    none [] none (some (.one ps)) (some 1) (some 1) [] [] []

/-- A schema that is only a one-branch `oneOf`. -/
def oneOfOnly (b : Schema) : Schema :=
  .mk (.single "") [] none none none "" "" none none none none none
    none [] none none none none [b] [] []

/-- Claim C3 theorem (amended): `generate` fails with the depth-exceeded
error exactly when called with `depth ≥ maxDepth` (first conjunct); a
descent into an object property or an array element is made at `depth+1`
(second and third conjuncts); but a descent into a composition branch is
made at the *same* depth — `handleOneOf` passes `depth` through unchanged
(fourth conjunct), contrary to the claim's "increments on every recursive
descent". -/
theorem depth_behavior (g : Config) (fuel : Nat) (st : GenState)
    (hc : st.cancelled = false) :
    (∀ s depth, g.maxDepth ≤ depth →
      generateWithContext g (fuel + 1) s depth st =
        (.error .depthExceeded, st)) ∧
    (∀ name ps depth, depth < g.maxDepth →
      generateWithContext g (fuel + 1) (propOnly name ps) depth st =
        (match generateWithContext g fuel ps (depth + 1) st with
         | (.error e, st1) => (.error (.fieldError name e), st1)
         | (.ok v, st1) => (.ok (.obj [(name, v)]), st1))) ∧
    (∀ ps depth, depth < g.maxDepth →
      generateWithContext g (fuel + 1) (itemOnly ps) depth st =
        (match generateWithContext g fuel ps (depth + 1) st with
         | (.error e, st1) => (.error (.itemError 0 e), st1)
         | (.ok v, st1) => (.ok (.arr [v]), st1))) ∧
    (∀ b depth, depth < g.maxDepth →
      generateWithContext g (fuel + 1) (oneOfOnly b) depth st =
        generateWithContext g fuel b depth
          { st with rpos := st.rpos + 1 }) := by
  refine ⟨?_, ?_, ?_, ?_⟩
  · intro s depth hd
    simp [generateWithContext, hc, hd]
  · intro name ps depth hd
    have hnd : ¬ (g.maxDepth ≤ depth) := Nat.not_le.mpr hd
    rcases hr : generateWithContext g fuel ps (depth + 1) st with ⟨res, st1⟩
    cases res with
    | error e =>
      simp [generateWithContext, hc, hnd, propOnly, Schema.const,
        Schema.enum, Schema.oneOf, Schema.anyOf, Schema.allOf, Schema.type,
        Schema.properties, Schema.required, Schema.additionalProperties,
        StringOrArray.isEmpty, StringOrArray.getTypes, generateByType,
        generateForType, generateObject, genProps, List.contains, hr]
    | ok v =>
      simp [generateWithContext, hc, hnd, propOnly, Schema.const,
        Schema.enum, Schema.oneOf, Schema.anyOf, Schema.allOf, Schema.type,
        Schema.properties, Schema.required, Schema.additionalProperties,
        StringOrArray.isEmpty, StringOrArray.getTypes, generateByType,
        generateForType, generateObject, genProps, List.contains, mapSet, hr]
  · intro ps depth hd
    have hnd : ¬ (g.maxDepth ≤ depth) := Nat.not_le.mpr hd
    rcases hr : generateWithContext g fuel ps (depth + 1) st with ⟨res, st1⟩
    cases res with
    | error e =>
      simp [generateWithContext, hc, hnd, itemOnly, Schema.const,
        Schema.enum, Schema.oneOf, Schema.anyOf, Schema.allOf, Schema.type,
        Schema.items, Schema.minItems, Schema.maxItems,
        StringOrArray.isEmpty, StringOrArray.getTypes, generateByType,
        generateForType, generateArray, drawCount, genItemsSingle, hr]
    | ok v =>
      simp [generateWithContext, hc, hnd, itemOnly, Schema.const,
        Schema.enum, Schema.oneOf, Schema.anyOf, Schema.allOf, Schema.type,
        Schema.items, Schema.minItems, Schema.maxItems,
        StringOrArray.isEmpty, StringOrArray.getTypes, generateByType,
        generateForType, generateArray, drawCount, genItemsSingle, hr]
  · intro b depth hd
    have hnd : ¬ (g.maxDepth ≤ depth) := Nat.not_le.mpr hd
    simp [generateWithContext, hc, hnd, oneOfOnly, Schema.const,
      Schema.enum, Schema.oneOf, Schema.type, handleOneOf, intn,
      Nat.mod_one, List.getD]

theorem depth_behavior_witness :
    generateWithContext gcfg 6 Schema.empty 10 st0 =
      (.error .depthExceeded, st0) ∧
    generateWithContext gcfg 6 (oneOfOnly boolSchema) 0 st0 =
      generateWithContext gcfg 5 boolSchema 0 { st0 with rpos := 1 } := by
  have h := depth_behavior gcfg 5 st0 rfl
  exact ⟨h.1 Schema.empty 10 (by decide), h.2.2.2 boolSchema 0 (by decide)⟩

/-- Whether an error is (or wraps) one of the empty-composition errors of
the three composition handlers. -/
def GenError.hasEmptyComp : GenError → Bool
  | .emptyOneOf => true
  | .emptyAnyOf => true
  | .emptyAllOf => true
  | .fieldError _ e => e.hasEmptyComp
  | .itemError _ e => e.hasEmptyComp
  | _ => false

/-- A recursive callback none of whose errors involve an empty-composition
error. -/
def Preserving (gen : Rec) : Prop :=
  ∀ s2 d2 st2 e2 st3, gen s2 d2 st2 = (.error e2, st3) →
    e2.hasEmptyComp = false

theorem genProps_safe (g : Config) (gen : Rec) (required : List String)
    (depth : Nat) (hgen : Preserving gen) :
    ∀ (props : List (String × Schema)) (acc : List (String × Value))
      (st st1 : GenState) (e : GenError),
      genProps g gen required depth props acc st = (.error e, st1) →
      e.hasEmptyComp = false
  | [], acc, st, st1, e, h => by
    injection h with h1 _
    cases h1
  | (name, ps) :: rest, acc, st, st1, e, h => by
    by_cases hsel : (required.contains name || g.generateAllFields) = true
    · rw [genProps, if_pos hsel] at h
      rcases hr : gen ps (depth + 1) st with ⟨res, st2⟩
      rw [hr] at h
      cases res with
      | error e0 =>
        injection h with h1 _
        injection h1 with h1
        rw [← h1]
        exact hgen ps (depth + 1) st e0 st2 hr
      | ok v =>
        exact genProps_safe g gen required depth hgen rest _ st2 st1 e h
    · rw [genProps, if_neg hsel] at h
      exact genProps_safe g gen required depth hgen rest acc st st1 e h

theorem genItemsSingle_safe (gen : Rec) (isch : Schema) (depth : Nat)
    (hgen : Preserving gen) :
    ∀ (idx n : Nat) (st st1 : GenState) (e : GenError),
      genItemsSingle gen isch depth idx n st = (.error e, st1) →
      e.hasEmptyComp = false
  | _, 0, st, st1, e, h => by
    injection h with h1 _
    cases h1
  | idx, n + 1, st, st1, e, h => by
    rw [genItemsSingle] at h
    rcases hr : gen isch (depth + 1) st with ⟨res, st2⟩
    rw [hr] at h
    cases res with
    | error e0 =>
      injection h with h1 _
      injection h1 with h1
      rw [← h1]
      exact hgen isch (depth + 1) st e0 st2 hr
    | ok v =>
      simp only [] at h
      rcases hr2 : genItemsSingle gen isch depth (idx + 1) n st2 with ⟨res2, st3⟩
      simp only [hr2] at h
      cases res2 with
      | error e1 =>
        injection h with h1 _
        injection h1 with h1
        rw [← h1]
        exact genItemsSingle_safe gen isch depth hgen (idx + 1) n st2 st3 e1 hr2
      | ok rest => 
        injection h with h1 _
        cases h1

theorem genItemsTuple_safe (gen : Rec) (schemas : List Schema) (depth : Nat)
    (hgen : Preserving gen) :
    ∀ (idx n : Nat) (st st1 : GenState) (e : GenError),
      genItemsTuple gen schemas depth idx n st = (.error e, st1) →
      e.hasEmptyComp = false
  | _, 0, st, st1, e, h => by
    injection h with h1 _
    cases h1
  | idx, n + 1, st, st1, e, h => by
    rw [genItemsTuple] at h
    rcases hget : schemas.get? idx with _ | isch
    · simp only [hget] at h
      rcases hr2 : genItemsTuple gen schemas depth (idx + 1) n
        { st with fpos := st.fpos + 1 } with ⟨res2, st3⟩
      simp only [fakerWord, hr2] at h
      cases res2 with
      | error e1 =>
        injection h with h1 _
        injection h1 with h1
        rw [← h1]
        exact genItemsTuple_safe gen schemas depth hgen (idx + 1) n _ st3 e1 hr2
      | ok rest =>
        injection h with h1 _
        cases h1
    · simp only [hget] at h
      rcases hr : gen isch (depth + 1) st with ⟨res, st2⟩
      simp only [hr] at h
      cases res with
      | error e0 =>
        injection h with h1 _
        injection h1 with h1
        rw [← h1]
        exact hgen isch (depth + 1) st e0 st2 hr
      | ok v =>
        simp only [] at h
        rcases hr2 : genItemsTuple gen schemas depth (idx + 1) n st2 with ⟨res2, st3⟩
        simp only [hr2] at h
        cases res2 with
        | error e1 =>
          injection h with h1 _
          injection h1 with h1
          rw [← h1]
          exact genItemsTuple_safe gen schemas depth hgen (idx + 1) n st2 st3 e1 hr2
        | ok rest =>
          injection h with h1 _
          cases h1

theorem generateString_safe (s : Schema) (st : GenState) (e : GenError)
    (st1 : GenState) (h : generateString s st = (.error e, st1)) :
    e.hasEmptyComp = false := by
  unfold generateString at h
  by_cases hp : s.pattern ≠ ""
  · rw [if_pos hp] at h
    unfold generateStringFromPattern at h
    rcases hpg : st.patGen s.pattern with _ | out
    · rw [hpg] at h
      injection h with h1 _
      injection h1 with h1
      rw [← h1]
      rfl
    · rw [hpg] at h
      injection h with h1 _
      cases h1
  · rw [if_neg hp] at h
    by_cases hf : s.format ≠ ""
    · rw [if_pos hf] at h
      injection h with h1 _
      cases h1
    · rw [if_neg hf] at h
      injection h with h1 _
      cases h1

theorem generateNumber_safe (s : Schema) (isInteger : Bool) (st : GenState)
    (e : GenError) (st1 : GenState)
    (h : generateNumber s isInteger st = (.error e, st1)) :
    e.hasEmptyComp = false := by
  unfold generateNumber at h
  by_cases hlt : effectiveMax s isInteger < effectiveMin s isInteger
  · rw [if_pos hlt] at h
    injection h with h1 _
    injection h1 with h1
    rw [← h1]
    rfl
  · rw [if_neg hlt] at h
    cases isInteger with
    | false =>
      injection h with h1 _
      cases h1
    | true =>
      injection h with h1 _
      cases h1

theorem generateObject_safe (g : Config) (gen : Rec) (s : Schema)
    (depth : Nat) (st st1 : GenState) (e : GenError)
    (hgen : Preserving gen)
    (h : generateObject g gen s depth st = (.error e, st1)) :
    e.hasEmptyComp = false := by
  unfold generateObject at h
  rcases hprops : s.properties with _ | props
  · simp only [hprops] at h
    injection h with h1 _
    cases h1
  · simp only [hprops] at h
    rcases hgp : genProps g gen s.required depth props [] st with ⟨res, st2⟩
    simp only [hgp] at h
    cases res with
    | error e0 =>
      injection h with h1 _
      injection h1 with h1
      rw [← h1]
      exact genProps_safe g gen s.required depth hgen props [] st st2 e0 hgp
    | ok flds =>
      rcases hap : s.additionalProperties with _ | ap
      · rw [hap] at h
        injection h with h1 _
        cases h1
      · rw [hap] at h
        rcases hAF : g.generateAllFields with _ | _
        · rw [hAF] at h
          injection h with h1 _
          cases h1
        · rw [hAF] at h
          cases ap with
          | boolean b =>
            cases b with
            | false =>
              injection h with h1 _
              cases h1
            | true =>
              injection h with h1 _
              cases h1
          | schema aps =>
            injection h with h1 _
            cases h1
          | other =>
            injection h with h1 _
            cases h1

theorem generateArray_safe (gen : Rec) (s : Schema) (depth : Nat)
    (st st1 : GenState) (e : GenError) (hgen : Preserving gen)
    (h : generateArray gen s depth st = (.error e, st1)) :
    e.hasEmptyComp = false := by
  rcases hdc : drawCount (s.minItems.getD 0)
    (if s.maxItems.getD 5 < s.minItems.getD 0 then s.minItems.getD 0
     else s.maxItems.getD 5) st with ⟨len, st2⟩
  rcases hit : s.items with _ | iv
  · simp only [generateArray, hdc, hit] at h
    injection h with h1 _
    cases h1
  · cases iv with
    | one isch =>
      simp only [generateArray, hdc, hit] at h
      rcases hgi : genItemsSingle gen isch depth 0 len st2 with ⟨res, st3⟩
      simp only [hgi] at h
      cases res with
      | error e0 =>
        injection h with h1 _
        injection h1 with h1
        rw [← h1]
        exact genItemsSingle_safe gen isch depth hgen 0 len st2 st3 e0 hgi
      | ok vs =>
        injection h with h1 _
        cases h1
    | tuple schemas =>
      simp only [generateArray, hdc, hit] at h
      rcases hgi : genItemsTuple gen schemas depth 0 len st2 with ⟨res, st3⟩
      simp only [hgi] at h
      cases res with
      | error e0 =>
        injection h with h1 _
        injection h1 with h1
        rw [← h1]
        exact genItemsTuple_safe gen schemas depth hgen 0 len st2 st3 e0 hgi
      | ok vs =>
        injection h with h1 _
        cases h1
    | other =>
      simp only [generateArray, hdc, hit] at h
      injection h with h1 _
      injection h1 with h1
      rw [← h1]
      rfl

theorem handleOneOf_safe (gen : Rec) (s : Schema) (depth : Nat)
    (st st1 : GenState) (e : GenError) (hgen : Preserving gen)
    (hne : s.oneOf ≠ []) (h : handleOneOf gen s depth st = (.error e, st1)) :
    e.hasEmptyComp = false := by
  rcases hof : s.oneOf with _ | ⟨b0, bs⟩
  · exact absurd hof hne
  · simp only [handleOneOf, hof] at h
    exact hgen _ _ _ _ _ h

theorem handleAnyOf_safe (gen : Rec) (s : Schema) (depth : Nat)
    (st st1 : GenState) (e : GenError) (hgen : Preserving gen)
    (hne : s.anyOf ≠ []) (h : handleAnyOf gen s depth st = (.error e, st1)) :
    e.hasEmptyComp = false := by
  rcases hof : s.anyOf with _ | ⟨b0, bs⟩
  · exact absurd hof hne
  · simp only [handleAnyOf, hof] at h
    exact hgen _ _ _ _ _ h

theorem handleAllOf_safe (gen : Rec) (s : Schema) (depth : Nat)
    (st st1 : GenState) (e : GenError) (hgen : Preserving gen)
    (hne : s.allOf ≠ []) (h : handleAllOf gen s depth st = (.error e, st1)) :
    e.hasEmptyComp = false := by
  rcases hof : s.allOf with _ | ⟨b0, bs⟩
  · exact absurd hof hne
  · simp only [handleAllOf, hof] at h
    exact hgen _ _ _ _ _ h

theorem generateForType_safe (g : Config) (gen : Rec) (t : String)
    (s : Schema) (depth : Nat) (st st1 : GenState) (e : GenError)
    (hgen : Preserving gen)
    (h : generateForType g gen t s depth st = (.error e, st1)) :
    e.hasEmptyComp = false := by
  unfold generateForType at h
  split at h
  · rcases hs : generateString s st with ⟨res, st2⟩
    rw [hs] at h
    cases res with
    | error e0 =>
      injection h with h1 _
      injection h1 with h1
      rw [← h1]
      exact generateString_safe s st e0 st2 hs
    | ok out =>
      injection h with h1 _
      cases h1
  · exact generateNumber_safe s false st e st1 h
  · exact generateNumber_safe s true st e st1 h
  · injection h with h1 _
    cases h1
  · exact generateObject_safe g gen s depth st st1 e hgen h
  · exact generateArray_safe gen s depth st st1 e hgen h
  · injection h with h1 _
    cases h1
  · injection h with h1 _
    injection h1 with h1
    rw [← h1]
    rfl

theorem generateByType_safe (g : Config) (gen : Rec) (s : Schema)
    (depth : Nat) (st st1 : GenState) (e : GenError)
    (hgen : Preserving gen)
    (h : generateByType g gen s depth st = (.error e, st1)) :
    e.hasEmptyComp = false := by
  unfold generateByType at h
  rcases hgt : s.type.getTypes with _ | ⟨t0, ts⟩
  · simp only [hgt] at h
    injection h with h1 _
    injection h1 with h1
    rw [← h1]
    rfl
  · cases ts with
    | nil =>
      simp only [hgt] at h
      exact generateForType_safe g gen t0 s depth st st1 e hgen h
    | cons t1 ts2 =>
      simp only [hgt] at h
      by_cases hch : (t0 :: t1 :: ts2).getD (intn st (ts2.length + 2)).1 t0 = ""
      · rw [if_pos hch] at h
        injection h with h1 _
        injection h1 with h1
        rw [← h1]
        rfl
      · rw [if_neg hch] at h
        exact generateForType_safe g gen _ _ depth _ st1 e hgen h

/-- Claim C6 theorem (amended): the engine never surfaces an
empty-composition error.  `generate` invokes the composition handlers only
on non-empty lists — a schema whose `oneOf`/`anyOf`/`allOf` keyword is an
empty sequence simply falls through to the remaining generation rules (see
the counterexample, which produces the default empty object) — so no error
returned by `generateWithContext`, at any fuel, depth or state, is or
wraps `emptyOneOf`, `emptyAnyOf` or `emptyAllOf`. -/
theorem empty_composition_skipped (g : Config) :
    ∀ (fuel : Nat) (s : Schema) (depth : Nat) (st : GenState) (e : GenError)
      (st1 : GenState),
      generateWithContext g fuel s depth st = (.error e, st1) →
      e.hasEmptyComp = false
  | 0, s, depth, st, e, st1, h => by
    injection h with h1 _
    injection h1 with h1
    rw [← h1]
    rfl
  | fuel + 1, s, depth, st, e, st1, h => by
    have IH :
        Preserving (fun s2 d2 st2 => generateWithContext g fuel s2 d2 st2) :=
      fun s2 d2 st2 e2 st3 h2 =>
        empty_composition_skipped g fuel s2 d2 st2 e2 st3 h2
    rw [generateWithContext] at h
    by_cases hcanc : st.cancelled
    · rw [if_pos hcanc] at h
      injection h with h1 _
      injection h1 with h1
      rw [← h1]
      rfl
    · rw [if_neg hcanc] at h
      by_cases hdep : g.maxDepth ≤ depth
      · rw [if_pos hdep] at h
        injection h with h1 _
        injection h1 with h1
        rw [← h1]
        rfl
      · rw [if_neg hdep] at h
        rcases hconst : s.const with _ | c
        · simp only [hconst] at h
          rcases henum : s.enum with _ | ⟨v0, vs⟩
          · simp only [henum] at h
            by_cases h1of : 0 < s.oneOf.length
            · rw [if_pos h1of] at h
              exact handleOneOf_safe _ s depth st st1 e IH
                (List.length_pos.mp h1of) h
            · rw [if_neg h1of] at h
              by_cases h2of : 0 < s.anyOf.length
              · rw [if_pos h2of] at h
                exact handleAnyOf_safe _ s depth st st1 e IH
                  (List.length_pos.mp h2of) h
              · rw [if_neg h2of] at h
                by_cases h3of : 0 < s.allOf.length
                · rw [if_pos h3of] at h
                  exact handleAllOf_safe _ s depth st st1 e IH
                    (List.length_pos.mp h3of) h
                · rw [if_neg h3of] at h
                  by_cases hty : s.type.isEmpty = false
                  · rw [if_pos hty] at h
                    exact generateByType_safe g _ s depth st st1 e IH h
                  · rw [if_neg hty] at h
                    rcases hprops : s.properties with _ | props
                    · simp only [hprops] at h
                      rcases hitems : s.items with _ | iv
                      · simp only [hitems] at h
                        injection h with h1 _
                        cases h1
                      · simp only [hitems] at h
                        exact generateArray_safe _ s depth st st1 e IH h
                    · simp only [hprops] at h
                      exact generateObject_safe g _ s depth st st1 e IH h
          · simp only [henum] at h
            injection h with h1 _
            cases h1
        · simp only [hconst] at h
          injection h with h1 _
          cases h1

theorem empty_composition_skipped_witness :
    (GenError.unsupportedType "unsupported_type").hasEmptyComp = false := by
  exact empty_composition_skipped gcfg 2 badTypeSchema 0 st0
    (.unsupportedType "unsupported_type") st0 rfl

/-- `q` extends `p`: helper for path-context reasoning. -/
theorem strExt_append {p q : String} (x : String) (h : ∃ t, q = p ++ t) :
    ∃ t, q ++ x = p ++ t := by
  obtain ⟨t, ht⟩ := h
  exact ⟨t ++ x, by rw [ht, String.append_assoc]⟩

theorem strExt_trans {p q r : String} (h1 : ∃ t, q = p ++ t)
    (h2 : ∃ t, r = q ++ t) : ∃ t, r = p ++ t := by
  obtain ⟨t1, ht1⟩ := h1
  obtain ⟨t2, ht2⟩ := h2
  exact ⟨t1 ++ t2, by rw [ht2, ht1, String.append_assoc]⟩

theorem mem_ite_singleton {c : Prop} [Decidable c] {x e : ValidationError}
    (h : e ∈ if c then [x] else ([] : List ValidationError)) : e = x := by
  split at h
  · exact List.mem_singleton.mp h
  · cases h

/-- A property child's path extends the base path. -/
theorem joinPath_ext (basePath name : String) :
    ∃ t, joinPath basePath name = basePath ++ t := by
  unfold joinPath
  by_cases hb : basePath = ""
  · rw [if_pos hb, hb]
    exact ⟨name, rfl⟩
  · rw [if_neg hb]
    exact ⟨"." ++ name, by rw [String.append_assoc]⟩

/-- A composition branch's indexed path extends the base path. -/
theorem branchPath_ext (basePath key : String) (i : Nat) :
    ∃ t, basePath ++ "." ++ key ++ "[" ++ toString i ++ "]" = basePath ++ t :=
  strExt_append _ (strExt_append _ (strExt_append _
    (strExt_append _ ⟨".", rfl⟩)))

theorem validateProps_path_ext (v : Schema → String → List ValidationError)
    (hv : ∀ s2 p2 e, e ∈ v s2 p2 → ∃ t, e.path = p2 ++ t) :
    ∀ (props : List (String × Schema)) (basePath : String)
      (e : ValidationError), e ∈ validateProps v props basePath →
      ∃ t, e.path = basePath ++ t
  | [], _, _, h => by cases h
  | (name, ps) :: rest, basePath, e, h => by
    simp only [validateProps] at h
    rcases List.mem_append.mp h with h1 | h2
    · exact strExt_trans (joinPath_ext basePath name) (hv ps _ e h1)
    · exact validateProps_path_ext v hv rest basePath e h2

theorem validateBranches_path_ext
    (v : Schema → String → List ValidationError)
    (hv : ∀ s2 p2 e, e ∈ v s2 p2 → ∃ t, e.path = p2 ++ t)
    (key basePath : String) :
    ∀ (bs : List Schema) (i : Nat) (e : ValidationError),
      e ∈ validateBranches v key basePath bs i → ∃ t, e.path = basePath ++ t
  | [], _, _, h => by cases h
  | b :: rest, i, e, h => by
    simp only [validateBranches] at h
    rcases List.mem_append.mp h with h1 | h2
    · exact strExt_trans (branchPath_ext basePath key i) (hv b _ e h1)
    · exact validateBranches_path_ext v hv key basePath rest (i + 1) e h2

/-- Every error the detailed validator reports carries a path extending
the base path of the sub-schema it was reported from. -/
theorem vwd_path_ext :
    ∀ (fuel : Nat) (s : Schema) (basePath : String) (e : ValidationError),
      e ∈ ValidateWithDetails fuel s basePath → ∃ t, e.path = basePath ++ t
  | 0, _, _, _, h => by cases h
  | fuel + 1, s, basePath, e, h => by
    have hv : ∀ s2 p2 e2, e2 ∈ ValidateWithDetails fuel s2 p2 →
        ∃ t, e2.path = p2 ++ t :=
      fun s2 p2 e2 h2 => vwd_path_ext fuel s2 p2 e2 h2
    simp only [ValidateWithDetails, List.mem_append] at h
    rcases h with ((((((h1 | h2) | h3) | h4) | h5) | h6) | h7) | h8
    · rcases hmn : s.minimum with _ | mn
      · simp only [hmn] at h1
        cases h1
      · rcases hmx : s.maximum with _ | mx
        · simp only [hmn, hmx] at h1
          cases h1
        · simp only [hmn, hmx] at h1
          rw [mem_ite_singleton h1]
          exact ⟨"", (String.append_empty basePath).symm⟩
    · rcases hmn : s.exclusiveMinimum with _ | mn
      · simp only [hmn] at h2
        cases h2
      · rcases hmx : s.exclusiveMaximum with _ | mx
        · simp only [hmn, hmx] at h2
          cases h2
        · simp only [hmn, hmx] at h2
          rw [mem_ite_singleton h2]
          exact ⟨"", (String.append_empty basePath).symm⟩
    · rcases hmn : s.minLength with _ | mn
      · simp only [hmn] at h3
        cases h3
      · rcases hmx : s.maxLength with _ | mx
        · simp only [hmn, hmx] at h3
          cases h3
        · simp only [hmn, hmx] at h3
          rw [mem_ite_singleton h3]
          exact ⟨"", (String.append_empty basePath).symm⟩
    · rcases hmn : s.minItems with _ | mn
      · simp only [hmn] at h4
        cases h4
      · rcases hmx : s.maxItems with _ | mx
        · simp only [hmn, hmx] at h4
          cases h4
        · simp only [hmn, hmx] at h4
          rw [mem_ite_singleton h4]
          exact ⟨"", (String.append_empty basePath).symm⟩
    · rcases hp : s.properties with _ | props
      · simp only [hp] at h5
        cases h5
      · simp only [hp] at h5
        exact validateProps_path_ext _ hv props basePath e h5
    · exact validateBranches_path_ext _ hv "oneOf" basePath s.oneOf 0 e h6
    · exact validateBranches_path_ext _ hv "anyOf" basePath s.anyOf 0 e h7
    · exact validateBranches_path_ext _ hv "allOf" basePath s.allOf 0 e h8

/-- `Validate` returns exactly the first element of the detailed list. -/
theorem validate_eq_head (fuel : Nat) (s : Schema) :
    Validate fuel s = (ValidateWithDetails fuel s "").head? := by
  unfold Validate
  rcases h : ValidateWithDetails fuel s "" with _ | ⟨e0, rest⟩ <;> rfl

/-- A schema with an error at every level: a node-level bound conflict,
an erroneous property, two erroneous `oneOf` branches and one erroneous
`anyOf` and `allOf` branch each. -/
def multiErrSchema : Schema :=
  (((((Schema.empty.withMinimum (some 5)).withMaximum (some 2)).withProperties
    (some [("p", badLenSchemaA)])).withOneOf
    [badLenSchemaA, badLenSchemaB]).withAnyOf [badLenSchemaA]).withAllOf
    [badLenSchemaB]

/-- Claim C7 theorem (amended): the detailed validation entry point
returns the full list of bound-pair violations at every nesting depth,
ordered structurally — the current node's errors first, then property
child errors (in Go's unspecified `properties` map iteration order, not a
fixed document order: see the counterexample), then `oneOf`, `anyOf` and
`allOf` branch errors left-to-right — each error carrying the
dotted/indexed path of its sub-schema (every reported path extends the
base path of the sub-schema that reported it, branch paths carrying a
leading dot and the branch index even at the root); the convenience
entry point returns exactly the first element of that list, or no error
when the list is empty. -/
theorem validation_details_structure :
    (∀ (fuel : Nat) (s : Schema),
      Validate fuel s = (ValidateWithDetails fuel s "").head?) ∧
    (∀ (fuel : Nat) (s : Schema) (basePath : String) (e : ValidationError),
      e ∈ ValidateWithDetails fuel s basePath → ∃ t, e.path = basePath ++ t) ∧
    (ValidateWithDetails 3 multiErrSchema "").map ValidationError.path =
      ["", "p", ".oneOf[0]", ".oneOf[1]", ".anyOf[0]", ".allOf[0]"] :=
  ⟨validate_eq_head, vwd_path_ext, rfl⟩

theorem validation_details_structure_witness :
    (Validate 3 multiErrSchema).map ValidationError.path = some "" ∧
    (∃ t, (ValidationError.mk "p"
      "minLength (3) cannot be greater than maxLength (1)").path =
        "" ++ t) := by
  constructor
  · rw [validation_details_structure.1 3 multiErrSchema]
    rfl
  · exact validation_details_structure.2.1 3 multiErrSchema ""
      ⟨"p", "minLength (3) cannot be greater than maxLength (1)"⟩ (by decide)
